import Mathlib

/-!
Verification of the dinkum-save-converter stream decoder.

The source is a JavaScript decoder for Microsoft .NET BinaryFormatter
streams.  This file shallowly embeds the current revision of the code:

* `src/src/classes/BinaryReader.js` — the Primitive Reader: little-endian
  fixed-width reads over a byte buffer with a mutable cursor that starts
  at offset 1.
* `src/src/classes/DotNetBinaryReader.js` (the latest of the revisions
  contained in that file, the one whose `read` loop dispatches on the
  record-type tag and whose `#readClassWithId` scans previous records) —
  the Record Decoder and Stream Decoder.
* the JSON rendering step of the command-line driver
  (`src/unnamed/part_001`) — the `JSON.stringify` replacer that turns
  BigInt values into decimal strings.

Modelling conventions:

* The byte buffer (the JS `DataView`) is a `List Nat` of byte values and
  is passed as an explicit, read-only argument `d`; the JS mutable
  `position` cursor is the state of the monad `M`.
* A `DataView` access past the end of the buffer throws a `RangeError`
  in JS; the spec's error taxonomy calls this `TruncatedInput`.  Every
  JS `throw`/failed `assert` site is mapped to the taxonomy name of the
  spec (§7) that covers it; plain `assert` range checks on ids/lengths
  that have no taxonomy name are mapped to `assertionFailure`.
* JS numbers obtained from signed reads are `Int`, from unsigned reads
  `Nat`; 64-bit reads (JS `BigInt`) are `Int`.  Floating point values
  are carried as their raw little-endian bit patterns (`Nat`): the
  decoder never computes with them, it only stores them.
* JS strings built from `String.fromCharCode` of byte values are Lean
  `String`s built with `Char.ofNat` (all code points produced are valid
  scalar values).
* The unbounded `while (true)` read loop takes explicit fuel; the
  top-level `read` supplies `d.length + 1`, which can never be exhausted
  because every loop iteration consumes at least the tag byte.
-/

/-- Error taxonomy of the decoder (spec §7), plus `assertionFailure` for
plain assert range checks and `outOfFuel` for the fuel artifact of the
embedded read loop. -/
inductive Err
  | malformedHeader
  | unsupportedRecordType
  | invalidEnumValue
  | unresolvedReference
  | truncatedInput
  | assertionFailure
  | outOfFuel
  deriving DecidableEq, Repr

/-- The reader monad: the state is the JS `position` cursor; the byte
buffer is passed separately (it is never mutated by the source). -/
def M (α : Type) : Type := Nat → Except Err (α × Nat)

instance : Monad M where
  pure a := fun p => Except.ok (a, p)
  bind m k := fun p =>
    match m p with
    | Except.error e => Except.error e
    | Except.ok (a, q) => k a q

/-- A JS `throw` (or failed `assert`). -/
def thr {α : Type} (e : Err) : M α := fun _ => Except.error e

theorem pure_apply {α : Type} (a : α) (p : Nat) :
    (pure a : M α) p = Except.ok (a, p) := rfl

theorem bind_apply {α β : Type} (m : M α) (k : α → M β) (p : Nat) :
    (m >>= k) p =
      match m p with
      | Except.error e => Except.error e
      | Except.ok (a, q) => k a q := rfl

theorem thr_apply {α : Type} (e : Err) (p : Nat) :
    (thr e : M α) p = Except.error e := rfl

namespace BinaryReader

/-- The bytes at offsets `p, p+1, …, p+w-1` of the buffer. -/
def bytesAt (d : List Nat) (p w : Nat) : List Nat := (d.drop p).take w

/-- Little-endian value of a byte list (first byte least significant),
the semantics of the JS `DataView` multi-byte getters with
`littleEndian = true`. -/
def leNat : List Nat → Nat
  | [] => 0
  | b :: bs => b + 256 * leNat bs

/-- Reinterpret a `w`-byte unsigned value as two's-complement signed,
the semantics of the JS `DataView` signed getters. -/
def toSigned (w : Nat) (n : Nat) : Int :=
  if n < 2 ^ (8 * w - 1) then (n : Int) else (n : Int) - 2 ^ (8 * w)

/-- Read `w` raw bytes at the cursor and advance it; a `DataView` access
past the end of the buffer is the `TruncatedInput` failure. -/
def readBytes (d : List Nat) (w : Nat) : M (List Nat) := fun p =>
  if p + w ≤ d.length then Except.ok (bytesAt d p w, p + w)
  else Except.error Err.truncatedInput

/-- `readUInt8` of `BinaryReader.js`. -/
def readUInt8 (d : List Nat) : M Nat := do
  let bs ← readBytes d 1
  pure (leNat bs)

/-- `readInt8` of `BinaryReader.js`. -/
def readInt8 (d : List Nat) : M Int := do
  let bs ← readBytes d 1
  pure (toSigned 1 (leNat bs))

/-- `readUInt16` of `BinaryReader.js`. -/
def readUInt16 (d : List Nat) : M Nat := do
  let bs ← readBytes d 2
  pure (leNat bs)

/-- `readInt16` of `BinaryReader.js`. -/
def readInt16 (d : List Nat) : M Int := do
  let bs ← readBytes d 2
  pure (toSigned 2 (leNat bs))

/-- `readUInt32` of `BinaryReader.js`. -/
def readUInt32 (d : List Nat) : M Nat := do
  let bs ← readBytes d 4
  pure (leNat bs)

/-- `readInt32` of `BinaryReader.js`. -/
def readInt32 (d : List Nat) : M Int := do
  let bs ← readBytes d 4
  pure (toSigned 4 (leNat bs))

/-- `readUInt64` of `BinaryReader.js` (JS `BigInt`, exact). -/
def readUInt64 (d : List Nat) : M Nat := do
  let bs ← readBytes d 8
  pure (leNat bs)

/-- `readInt64` of `BinaryReader.js` (JS `BigInt`, exact). -/
def readInt64 (d : List Nat) : M Int := do
  let bs ← readBytes d 8
  pure (toSigned 8 (leNat bs))

/-- `readFloat32` of `BinaryReader.js`; the value is carried as its raw
32-bit little-endian bit pattern (the decoder only stores it). -/
def readFloat32 (d : List Nat) : M Nat := do
  let bs ← readBytes d 4
  pure (leNat bs)

/-- `readFloat64` of `BinaryReader.js`; raw 64-bit bit pattern. -/
def readFloat64 (d : List Nat) : M Nat := do
  let bs ← readBytes d 8
  pure (leNat bs)

/-- `readChar` of `BinaryReader.js`: one unsigned byte mapped through
`String.fromCharCode`. -/
def readChar (d : List Nat) : M Char := do
  let n ← readUInt8 d
  pure (Char.ofNat n)

/-- The byte-collecting loop of `readString`: `length` iterations of
`readUInt8`, each bounds-checked individually. -/
def readCharCodes (d : List Nat) : Nat → M (List Nat)
  | 0 => pure []
  | n + 1 => do
    let b ← readUInt8 d
    let rest ← readCharCodes d n
    pure (b :: rest)

/-- `String.fromCharCode.apply` over a list of byte values. -/
def codesToString (cs : List Nat) : String := String.mk (cs.map Char.ofNat)

/-- `readString` of `BinaryReader.js`: one unsigned length byte, then
that many bytes, each one character code. -/
def readString (d : List Nat) : M String := do
  let length ← readUInt8 d
  let buffer ← readCharCodes d length
  pure (codesToString buffer)

end BinaryReader

/-- The `position = 1` field initializer of `BinaryReader.js`: a freshly
constructed reader starts with its cursor at offset 1. -/
def initialPosition : Nat := 1

namespace DotNetBinaryReader

open BinaryReader

/-- One entry of the `AdditionalInfos` array of a `MemberTypeInfo`
(`#readAdditionalInfo` of `DotNetBinaryReader.js`): a primitive type id
(a signed byte), a `ClassTypeInfo` object, JS `null` for the no-payload
binary types, or JS `undefined` when the switch has no matching case. -/
inductive AddInfo
  | primType (n : Int)
  | classTypeInfo (typeName : String) (libraryId : Int)
  | jsNull
  | jsUndefined
  deriving DecidableEq, Repr

/-- `ArrayInfo` structure (`#readArrayInfo`). -/
structure ArrayInfo where
  objectId : Int
  length : Int
  deriving DecidableEq, Repr

/-- `ClassInfo` structure (`#readClassInfo`). -/
structure ClassInfo where
  objectId : Int
  name : String
  memberCount : Int
  memberNames : List String
  deriving DecidableEq, Repr

/-- `MemberTypeInfo` structure (`#readMemberTypeInfo`). -/
structure MemberTypeInfo where
  binaryTypeEnums : List Nat
  additionalInfos : List AddInfo
  deriving DecidableEq, Repr

/-- A decoded member value.  `vChar` models the one-character JS string
returned by `#readChar`; `vF32`/`vF64` carry raw float bit patterns;
`vRef` is the inline `{RecordTypeEnum, IdRef}` reference descriptor of a
Class-typed member; `vUndefined` is the JS array hole left for
PrimitiveArray members (and for member type enums matching no switch
case). -/
inductive Value
  | vBool (b : Bool)
  | vNum (i : Int)
  | vBig (i : Int)
  | vStr (s : String)
  | vChar (c : Char)
  | vF32 (bits : Nat)
  | vF64 (bits : Nat)
  | vRef (recordTypeEnum : Int) (idRef : Int)
  | vUndefined
  deriving DecidableEq, Repr

/-- A decoded record, one constructor per record function of
`DotNetBinaryReader.js`. -/
inductive Record
  | serializationHeader (rootId headerId majorVersion minorVersion : Int)
  | classWithId (objectId metadataId : Int) (memberValues : List Value)
  | classWithMembersAndTypes (classInfo : ClassInfo)
      (memberTypeInfo : MemberTypeInfo) (libraryId : Nat)
      (memberValues : List Value)
  | memberReference (idRef : Int)
  | binaryArray (objectId : Int) (binaryArrayTypeEnum : Int) (rank : Int)
      (lengths : List Int) (lowerBounds : Option (List Int))
      (typeEnum : Int) (additionalTypeInfo : AddInfo)
  | binaryLibrary (libraryId : Nat) (libraryName : String)
  | arraySinglePrimitive (arrayInfo : ArrayInfo) (primitiveTypeEnum : Int)
  deriving DecidableEq, Repr

/-- `#readLengthPrefixedString`: identical body to
`BinaryReader.readString` (the source duplicates it). -/
def readLengthPrefixedString (d : List Nat) : M String := do
  let length ← readUInt8 d
  let buffer ← readCharCodes d length
  pure (codesToString buffer)

/-- `#readChar` of `DotNetBinaryReader.js`: a SIGNED byte through
`String.fromCharCode`, which in JS reduces its argument modulo 2^16. -/
def readDotNetChar (d : List Nat) : M Char := do
  let n ← readInt8 d
  pure (Char.ofNat ((n % 65536).toNat))

/-- `#readDecimal`: a length-prefixed string, no numeric
interpretation. -/
def readDecimal (d : List Nat) : M String :=
  readLengthPrefixedString d

/-- `#readClassTypeInfo`: TypeName (length-prefixed string) then
LibraryId (signed 32-bit); returned as the `AddInfo` it is stored as. -/
def readClassTypeInfo (d : List Nat) : M AddInfo := do
  let typeName ← readLengthPrefixedString d
  let libraryId ← readInt32 d
  pure (AddInfo.classTypeInfo typeName libraryId)

/-- `#readAdditionalInfo`: switch over the BinaryTypeEnum.  Cases 0
(Primitive) and 7 (PrimitiveArray) read one signed byte; 1, 2, 5, 6
return `null`; 3 (SystemClass) throws; 4 (Class) reads a ClassTypeInfo.
The switch has NO default case: any other value returns `undefined`
without failing. -/
def readAdditionalInfo (d : List Nat) (binaryTypeEnum : Int) : M AddInfo :=
  if binaryTypeEnum = 0 then do
    let n ← readInt8 d
    pure (AddInfo.primType n)
  else if binaryTypeEnum = 1 then pure AddInfo.jsNull
  else if binaryTypeEnum = 2 then pure AddInfo.jsNull
  else if binaryTypeEnum = 3 then thr Err.unsupportedRecordType
  else if binaryTypeEnum = 4 then readClassTypeInfo d
  else if binaryTypeEnum = 5 then pure AddInfo.jsNull
  else if binaryTypeEnum = 6 then pure AddInfo.jsNull
  else if binaryTypeEnum = 7 then do
    let n ← readInt8 d
    pure (AddInfo.primType n)
  else pure AddInfo.jsUndefined

/-- `#readPrimitive`: switch over the PrimitiveTypeEnum 1..18; 4
(Unused) and any value outside the enumeration throw "Invalid primitive
type" (`InvalidEnumValue`); 17 (Null) throws "Unimplemented primitive
type" (`UnsupportedRecordType`). -/
def readPrimitive (d : List Nat) (type : Int) : M Value :=
  if type = 1 then do
    let n ← readInt8 d
    pure (Value.vBool (n != 0))
  else if type = 2 then do
    let n ← readUInt8 d
    pure (Value.vNum n)
  else if type = 3 then do
    let c ← readDotNetChar d
    pure (Value.vChar c)
  else if type = 4 then thr Err.invalidEnumValue
  else if type = 5 then do
    let s ← readDecimal d
    pure (Value.vStr s)
  else if type = 6 then do
    let bits ← readFloat64 d
    pure (Value.vF64 bits)
  else if type = 7 then do
    let n ← readInt16 d
    pure (Value.vNum n)
  else if type = 8 then do
    let n ← readInt32 d
    pure (Value.vNum n)
  else if type = 9 then do
    let n ← readInt64 d
    pure (Value.vBig n)
  else if type = 10 then do
    let n ← readInt8 d
    pure (Value.vNum n)
  else if type = 11 then do
    let bits ← readFloat32 d
    pure (Value.vF32 bits)
  else if type = 12 then do
    let n ← readInt64 d
    pure (Value.vBig n)
  else if type = 13 then do
    let n ← readInt64 d
    pure (Value.vBig n)
  else if type = 14 then do
    let n ← readUInt16 d
    pure (Value.vNum n)
  else if type = 15 then do
    let n ← readUInt32 d
    pure (Value.vNum n)
  else if type = 16 then do
    let n ← readUInt64 d
    pure (Value.vBig n)
  else if type = 17 then thr Err.unsupportedRecordType
  else if type = 18 then do
    let s ← readLengthPrefixedString d
    pure (Value.vStr s)
  else thr Err.invalidEnumValue

/-- The JS call `this.#readPrimitive(additionalInfo)` with the stored
`AdditionalInfos[i]` as argument: a stored number is the type id; any
non-number (`ClassTypeInfo` object, `null`, `undefined`) matches no
switch case and hits the default "Invalid primitive type" branch. -/
def readPrimitiveOfAddInfo (d : List Nat) (a : AddInfo) : M Value :=
  match a with
  | AddInfo.primType n => readPrimitive d n
  | _ => thr Err.invalidEnumValue

/-- `#readArrayInfo`: ObjectId (signed 32-bit, asserted positive) then
Length (signed 32-bit, asserted nonnegative). -/
def readArrayInfo (d : List Nat) : M ArrayInfo := do
  let objectId ← readInt32 d
  if 0 < objectId then do
    let length ← readInt32 d
    if 0 ≤ length then pure ⟨objectId, length⟩
    else thr Err.assertionFailure
  else thr Err.assertionFailure

/-- The member-name loop of `#readClassInfo`. -/
def readMemberNames (d : List Nat) : Nat → M (List String)
  | 0 => pure []
  | n + 1 => do
    let s ← readLengthPrefixedString d
    let rest ← readMemberNames d n
    pure (s :: rest)

/-- `#readClassInfo`: ObjectId (signed 32-bit), Name, MemberCount
(signed 32-bit, asserted nonnegative), then MemberCount names. -/
def readClassInfo (d : List Nat) : M ClassInfo := do
  let objectId ← readInt32 d
  let name ← readLengthPrefixedString d
  let memberCount ← readInt32 d
  if 0 ≤ memberCount then do
    let memberNames ← readMemberNames d memberCount.toNat
    pure ⟨objectId, name, memberCount, memberNames⟩
  else thr Err.assertionFailure

/-- First loop of `#readMemberTypeInfo`: MemberCount unsigned bytes. -/
def readBinaryTypeEnums (d : List Nat) : Nat → M (List Nat)
  | 0 => pure []
  | n + 1 => do
    let b ← readUInt8 d
    let rest ← readBinaryTypeEnums d n
    pure (b :: rest)

/-- Second loop of `#readMemberTypeInfo`: one `#readAdditionalInfo` per
already-read BinaryTypeEnum, in order. -/
def readAdditionalInfos (d : List Nat) : List Nat → M (List AddInfo)
  | [] => pure []
  | e :: es => do
    let a ← readAdditionalInfo d (e : Int)
    let rest ← readAdditionalInfos d es
    pure (a :: rest)

/-- `#readMemberTypeInfo`: the two passes (all type bytes first, then
all AdditionalInfos). -/
def readMemberTypeInfo (d : List Nat) (classInfo : ClassInfo) :
    M MemberTypeInfo := do
  let enums ← readBinaryTypeEnums d classInfo.memberCount.toNat
  let infos ← readAdditionalInfos d enums
  pure ⟨enums, infos⟩

/-- The per-member view of the loops of `#readClassMemberValues`: for
each index `i` below MemberCount, the pair
`(BinaryTypeEnums[i], AdditionalInfos[i])`.  A JS index beyond the array
length yields `undefined`, which matches no switch case; the sentinel
256 (not a byte value) plays that role for the enum. -/
def memberPairs (classInfo : ClassInfo) (memberTypeInfo : MemberTypeInfo) :
    List (Nat × AddInfo) :=
  (List.range classInfo.memberCount.toNat).map fun i =>
    (memberTypeInfo.binaryTypeEnums.getD i 256,
     memberTypeInfo.additionalInfos.getD i AddInfo.jsUndefined)

/-- First loop of `#readClassMemberValues`: switch on the member's
BinaryTypeEnum.  0 reads a primitive, 1 a length-prefixed string, 4 an
inline `{RecordTypeEnum, IdRef}` descriptor; 2, 3, 5, 6 throw "Not
implemented"; 7 (PrimitiveArray) is deferred (the array slot stays
`undefined`); any other value matches no case and the slot also stays
`undefined`. -/
def readMemberValuesFirstPass (d : List Nat) :
    List (Nat × AddInfo) → M (List Value)
  | [] => pure []
  | (b, a) :: rest =>
    if b = 0 then do
      let v ← readPrimitiveOfAddInfo d a
      let vs ← readMemberValuesFirstPass d rest
      pure (v :: vs)
    else if b = 1 then do
      let s ← readLengthPrefixedString d
      let vs ← readMemberValuesFirstPass d rest
      pure (Value.vStr s :: vs)
    else if b = 2 then thr Err.unsupportedRecordType
    else if b = 3 then thr Err.unsupportedRecordType
    else if b = 4 then do
      let recordTypeEnum ← readInt8 d
      let idRef ← readInt32 d
      let vs ← readMemberValuesFirstPass d rest
      pure (Value.vRef recordTypeEnum idRef :: vs)
    else if b = 5 then thr Err.unsupportedRecordType
    else if b = 6 then thr Err.unsupportedRecordType
    else if b = 7 then do
      let vs ← readMemberValuesFirstPass d rest
      pure (Value.vUndefined :: vs)
    else do
      let vs ← readMemberValuesFirstPass d rest
      pure (Value.vUndefined :: vs)

/-- Second loop of `#readClassMemberValues`: for each PrimitiveArray
member, read one tag byte and an ArrayInfo (the element payload is not
collected - the source's TODO). -/
def readMemberValuesSecondPass (d : List Nat) :
    List (Nat × AddInfo) → M Unit
  | [] => pure ()
  | (b, _) :: rest =>
    if b = 7 then do
      let _ ← readInt8 d
      let _ ← readArrayInfo d
      readMemberValuesSecondPass d rest
    else readMemberValuesSecondPass d rest

/-- `#readClassMemberValues`, taking the class record's `ClassInfo` and
`MemberTypeInfo` (the only fields of the record argument it uses). -/
def readClassMemberValues (d : List Nat) (classInfo : ClassInfo)
    (memberTypeInfo : MemberTypeInfo) : M (List Value) := do
  let memberValues ←
    readMemberValuesFirstPass d (memberPairs classInfo memberTypeInfo)
  let _ ← readMemberValuesSecondPass d (memberPairs classInfo memberTypeInfo)
  pure memberValues

/-- `#readArraySinglePrimitive`: ArrayInfo, then a signed
PrimitiveTypeEnum byte asserted to lie in 0..16. -/
def readArraySinglePrimitive (d : List Nat) (previousRecords : List Record) :
    M Record := do
  let arrayInfo ← readArrayInfo d
  let primitiveTypeEnum ← readInt8 d
  if 0 ≤ primitiveTypeEnum ∧ primitiveTypeEnum ≤ 16 then
    pure (Record.arraySinglePrimitive arrayInfo primitiveTypeEnum)
  else thr Err.invalidEnumValue

/-- The Lengths / LowerBounds loop of `#readBinaryArray`: Rank signed
32-bit reads. -/
def readInt32List (d : List Nat) : Nat → M (List Int)
  | 0 => pure []
  | n + 1 => do
    let i ← readInt32 d
    let rest ← readInt32List d n
    pure (i :: rest)

/-- `#readBinaryArray`: ObjectId, array-kind byte (asserted 0..5), Rank
(asserted positive), Rank Lengths, Rank LowerBounds for the Offset
kinds, element TypeEnum byte (asserted in 0..22 excluding 18..20), and
its AdditionalInfo.  Element values are not read (source TODO). -/
def readBinaryArray (d : List Nat) (previousRecords : List Record) :
    M Record := do
  let objectId ← readInt32 d
  let binaryArrayTypeEnum ← readInt8 d
  if 0 ≤ binaryArrayTypeEnum ∧ binaryArrayTypeEnum ≤ 5 then do
    let rank ← readInt32 d
    if 0 < rank then do
      let lengths ← readInt32List d rank.toNat
      if rank.toNat = lengths.length then do
        let lowerBounds ←
          if binaryArrayTypeEnum = 3 ∨ binaryArrayTypeEnum = 4 ∨
              binaryArrayTypeEnum = 5 then do
            let lbs ← readInt32List d rank.toNat
            pure (some lbs)
          else pure (none : Option (List Int))
        let typeEnum ← readInt8 d
        if (0 ≤ typeEnum ∧ typeEnum ≤ 22) ∧
            ¬(18 ≤ typeEnum ∧ typeEnum ≤ 20) then do
          let additionalTypeInfo ← readAdditionalInfo d typeEnum
          pure (Record.binaryArray objectId binaryArrayTypeEnum rank
            lengths lowerBounds typeEnum additionalTypeInfo)
        else thr Err.invalidEnumValue
      else thr Err.assertionFailure
    else thr Err.assertionFailure
  else thr Err.invalidEnumValue

/-- `#readBinaryLibrary`: LibraryId (unsigned 32-bit, asserted
positive) and a length-prefixed name. -/
def readBinaryLibrary (d : List Nat) (previousRecords : List Record) :
    M Record := do
  let libraryId ← readUInt32 d
  let libraryName ← readLengthPrefixedString d
  if 0 < libraryId then pure (Record.binaryLibrary libraryId libraryName)
  else thr Err.assertionFailure

/-- The record-kind test of the `#readClassWithId` scan: the JS checks
for the four class-defining RecordTypeEnums 2, 3, 4 and 5, but 2, 3 and
4 throw in the read loop and are never pushed to the log, so
`classWithMembersAndTypes` is the only one that can occur. -/
def isRelevantClassRecord (metadataId : Int) (r : Record) : Bool :=
  match r with
  | Record.classWithMembersAndTypes classInfo _ _ _ =>
      classInfo.objectId == metadataId
  | _ => false

/-- The `for (const previousRecord of previousRecords)` scan of
`#readClassWithId`: keeps the LAST matching record (the loop has no
break). -/
def findRelevantClassRecord (previousRecords : List Record)
    (metadataId : Int) : Option Record :=
  previousRecords.foldl
    (fun acc r => if isRelevantClassRecord metadataId r then some r else acc)
    none

/-- The `.ClassInfo` field access on the found record (only reachable
for `classWithMembersAndTypes`). -/
def recordClassInfo : Record → ClassInfo
  | Record.classWithMembersAndTypes classInfo _ _ _ => classInfo
  | _ => ⟨0, "", 0, []⟩

/-- The `.MemberTypeInfo` field access on the found record. -/
def recordMemberTypeInfo : Record → MemberTypeInfo
  | Record.classWithMembersAndTypes _ memberTypeInfo _ _ => memberTypeInfo
  | _ => ⟨[], []⟩

/-- `#readClassWithId`: ObjectId, MetadataId, then the scan for a
previously decoded class record with that ObjectId (assert, mapped to
`UnresolvedReference` per spec §7), then the member values decoded with
the found record's schema. -/
def readClassWithId (d : List Nat) (previousRecords : List Record) :
    M Record := do
  let objectId ← readInt32 d
  let metadataId ← readInt32 d
  match findRelevantClassRecord previousRecords metadataId with
  | none => thr Err.unresolvedReference
  | some r => do
    let memberValues ←
      readClassMemberValues d (recordClassInfo r) (recordMemberTypeInfo r)
    pure (Record.classWithId objectId metadataId memberValues)

/-- `#readClassWithMembersAndTypes`: ClassInfo, MemberTypeInfo,
LibraryId (unsigned 32-bit), then the member values with the record's
own schema. -/
def readClassWithMembersAndTypes (d : List Nat)
    (previousRecords : List Record) : M Record := do
  let classInfo ← readClassInfo d
  let memberTypeInfo ← readMemberTypeInfo d classInfo
  let libraryId ← readUInt32 d
  let memberValues ← readClassMemberValues d classInfo memberTypeInfo
  pure (Record.classWithMembersAndTypes classInfo memberTypeInfo libraryId
    memberValues)

/-- `#readMemberReference`: IdRef (signed 32-bit); the assert checks
`IdRef >= 0` (although its message demands a positive integer). -/
def readMemberReference (d : List Nat) (previousRecords : List Record) :
    M Record := do
  let idRef ← readInt32 d
  if 0 ≤ idRef then pure (Record.memberReference idRef)
  else thr Err.assertionFailure

/-- `#readSerializationHeader`: RootId, HeaderId, MajorVersion,
MinorVersion (signed 32-bit each); MajorVersion must be 1 and
MinorVersion 0 (`MalformedHeader`). -/
def readSerializationHeader (d : List Nat) (previousRecords : List Record) :
    M Record := do
  let rootId ← readInt32 d
  let headerId ← readInt32 d
  let majorVersion ← readInt32 d
  let minorVersion ← readInt32 d
  if majorVersion = 1 then
    if minorVersion = 0 then
      pure (Record.serializationHeader rootId headerId majorVersion
        minorVersion)
    else thr Err.malformedHeader
  else thr Err.malformedHeader

/-- The `while (true)` dispatch loop of `read`: read a signed tag byte,
dispatch; MessageEnd (11) returns the accumulated records; unsupported
tags and the default case throw.  The fuel argument is an embedding
artifact (each iteration consumes at least one byte, so
`d.length + 1` can never run out). -/
def readLoop (d : List Nat) : Nat → List Record → M (List Record)
  | 0, _ => thr Err.outOfFuel
  | fuel + 1, records => do
    let recordType ← readInt8 d
    if recordType = 0 then do
      let r ← readSerializationHeader d records
      readLoop d fuel (records ++ [r])
    else if recordType = 1 then do
      let r ← readClassWithId d records
      readLoop d fuel (records ++ [r])
    else if recordType = 2 then thr Err.unsupportedRecordType
    else if recordType = 3 then thr Err.unsupportedRecordType
    else if recordType = 4 then thr Err.unsupportedRecordType
    else if recordType = 5 then do
      let r ← readClassWithMembersAndTypes d records
      readLoop d fuel (records ++ [r])
    else if recordType = 6 then thr Err.unsupportedRecordType
    else if recordType = 7 then do
      let r ← readBinaryArray d records
      readLoop d fuel (records ++ [r])
    else if recordType = 8 then thr Err.unsupportedRecordType
    else if recordType = 9 then do
      let r ← readMemberReference d records
      readLoop d fuel (records ++ [r])
    else if recordType = 10 then thr Err.unsupportedRecordType
    else if recordType = 11 then pure records
    else if recordType = 12 then do
      let r ← readBinaryLibrary d records
      readLoop d fuel (records ++ [r])
    else if recordType = 13 then thr Err.unsupportedRecordType
    else if recordType = 14 then thr Err.unsupportedRecordType
    else if recordType = 15 then do
      let r ← readArraySinglePrimitive d records
      readLoop d fuel (records ++ [r])
    else if recordType = 16 then thr Err.unsupportedRecordType
    else if recordType = 17 then thr Err.unsupportedRecordType
    else if recordType = 21 then thr Err.unsupportedRecordType
    else if recordType = 22 then thr Err.unsupportedRecordType
    else thr Err.unsupportedRecordType

/-- `read` of `DotNetBinaryReader.js`: run the loop from the freshly
constructed reader's cursor (offset 1) with an empty record log.  On
success the result is the record log and the final cursor; the code
performs NO post-processing of the log before returning it. -/
def read (d : List Nat) : Except Err (List Record × Nat) :=
  readLoop d (d.length + 1) [] initialPosition

end DotNetBinaryReader

/-- The `JSON.stringify` replacer of the driver (`src/unnamed/part_001`):
a BigInt value is replaced by its decimal string; every other value is
returned unchanged. -/
def jsonReplacer : DotNetBinaryReader.Value → DotNetBinaryReader.Value
  | DotNetBinaryReader.Value.vBig i =>
      DotNetBinaryReader.Value.vStr (toString i)
  | v => v

/-!
Simulation machinery.

`Compat d dp` says two buffers have the same length and the same bytes
at every offset from 1 on (only the byte at offset 0 may differ).
`SimM d dp m mp` packages the two facts every reader computation
enjoys: (i) the cursor only moves forward and, started in bounds, stays
in bounds; (ii) started at any offset not less than 1, the computation
cannot distinguish `Compat` buffers (it never touches offset 0).
-/

/-- Two buffers of the same length that agree at every offset except
possibly offset 0. -/
def Compat (d dp : List Nat) : Prop :=
  d.length = dp.length ∧ ∀ i, 1 ≤ i → d[i]? = dp[i]?

theorem Compat.refl (d : List Nat) : Compat d d := ⟨rfl, fun _ _ => rfl⟩

theorem Compat.drop_eq {d dp : List Nat} (h : Compat d dp) {p : Nat}
    (hp : 1 ≤ p) : d.drop p = dp.drop p := by
  apply List.ext_getElem?
  intro n
  rw [List.getElem?_drop, List.getElem?_drop]
  exact h.2 (p + n) (by omega)

/-- Cursor monotonicity and bounds for the left computation, plus
equality of the two computations at every cursor position ≥ 1. -/
def SimM (d dp : List Nat) {α : Type} (m mp : M α) : Prop :=
  (∀ p a q, m p = Except.ok (a, q) → p ≤ q ∧ (p ≤ d.length → q ≤ d.length)) ∧
  (∀ p, 1 ≤ p → m p = mp p)

theorem simM_pure {d dp : List Nat} {α : Type} (a : α) :
    SimM d dp (pure a) (pure a) := by
  refine ⟨?_, fun _ _ => rfl⟩
  intro p b q h
  rw [pure_apply] at h
  cases h
  exact ⟨le_refl p, fun hp => hp⟩

theorem simM_thr {d dp : List Nat} {α : Type} (e : Err) :
    SimM d dp (thr e : M α) (thr e) := by
  refine ⟨?_, fun _ _ => rfl⟩
  intro p b q h
  cases h

theorem simM_bind {d dp : List Nat} {α β : Type} {m mp : M α}
    {k kp : α → M β} (hm : SimM d dp m mp)
    (hk : ∀ a, SimM d dp (k a) (kp a)) :
    SimM d dp (m >>= k) (mp >>= kp) := by
  constructor
  · intro p b r hok
    rw [bind_apply] at hok
    cases hmp : m p with
    | error e => rw [hmp] at hok; cases hok
    | ok aq =>
      obtain ⟨a, q⟩ := aq
      rw [hmp] at hok
      have h1 := hm.1 p a q hmp
      have h2 := (hk a).1 q b r hok
      exact ⟨le_trans h1.1 h2.1, fun hp => h2.2 (h1.2 hp)⟩
  · intro p hp
    rw [bind_apply, bind_apply, ← hm.2 p hp]
    cases hmp : m p with
    | error e => rfl
    | ok aq =>
      obtain ⟨a, q⟩ := aq
      have h1 := hm.1 p a q hmp
      exact (hk a).2 q (le_trans hp h1.1)

theorem simM_readBytesBase {d dp : List Nat} (h : Compat d dp) (w : Nat) :
    SimM d dp (BinaryReader.readBytes d w) (BinaryReader.readBytes dp w) := by
  constructor
  · intro p a q hok
    unfold BinaryReader.readBytes at hok
    by_cases hb : p + w ≤ d.length
    · rw [if_pos hb] at hok
      cases hok
      exact ⟨by omega, fun _ => by omega⟩
    · rw [if_neg hb] at hok
      cases hok
  · intro p hp
    unfold BinaryReader.readBytes BinaryReader.bytesAt
    rw [h.1, Compat.drop_eq h hp]

theorem simM_mapBytes {d dp : List Nat} {α : Type} (h : Compat d dp)
    (w : Nat) (f : List Nat → α) :
    SimM d dp (BinaryReader.readBytes d w >>= fun bs => pure (f bs))
      (BinaryReader.readBytes dp w >>= fun bs => pure (f bs)) :=
  simM_bind (simM_readBytesBase h w) fun _ => simM_pure _

theorem simM_ite {d dp : List Nat} {α : Type} {c : Prop} [Decidable c]
    {m1 m2 : M α} {m1p m2p : M α} (h1 : c → SimM d dp m1 m1p)
    (h2 : ¬c → SimM d dp m2 m2p) :
    SimM d dp (if c then m1 else m2) (if c then m1p else m2p) := by
  by_cases hc : c
  · rw [if_pos hc, if_pos hc]; exact h1 hc
  · rw [if_neg hc, if_neg hc]; exact h2 hc

namespace BinaryReader

variable {d dp : List Nat}

theorem simM_readUInt8 (h : Compat d dp) :
    SimM d dp (readUInt8 d) (readUInt8 dp) := simM_mapBytes h 1 _

theorem simM_readInt8 (h : Compat d dp) :
    SimM d dp (readInt8 d) (readInt8 dp) := simM_mapBytes h 1 _

theorem simM_readUInt16 (h : Compat d dp) :
    SimM d dp (readUInt16 d) (readUInt16 dp) := simM_mapBytes h 2 _

theorem simM_readInt16 (h : Compat d dp) :
    SimM d dp (readInt16 d) (readInt16 dp) := simM_mapBytes h 2 _

theorem simM_readUInt32 (h : Compat d dp) :
    SimM d dp (readUInt32 d) (readUInt32 dp) := simM_mapBytes h 4 _

theorem simM_readInt32 (h : Compat d dp) :
    SimM d dp (readInt32 d) (readInt32 dp) := simM_mapBytes h 4 _

theorem simM_readUInt64 (h : Compat d dp) :
    SimM d dp (readUInt64 d) (readUInt64 dp) := simM_mapBytes h 8 _

theorem simM_readInt64 (h : Compat d dp) :
    SimM d dp (readInt64 d) (readInt64 dp) := simM_mapBytes h 8 _

theorem simM_readFloat32 (h : Compat d dp) :
    SimM d dp (readFloat32 d) (readFloat32 dp) := simM_mapBytes h 4 _

theorem simM_readFloat64 (h : Compat d dp) :
    SimM d dp (readFloat64 d) (readFloat64 dp) := simM_mapBytes h 8 _

theorem simM_readChar (h : Compat d dp) :
    SimM d dp (readChar d) (readChar dp) :=
  simM_bind (simM_readUInt8 h) fun _ => simM_pure _

theorem simM_readCharCodes (h : Compat d dp) (n : Nat) :
    SimM d dp (readCharCodes d n) (readCharCodes dp n) := by
  induction n with
  | zero => exact simM_pure _
  | succ n ih =>
    exact simM_bind (simM_readUInt8 h) fun b =>
      simM_bind ih fun rest => simM_pure _

theorem simM_readString (h : Compat d dp) :
    SimM d dp (readString d) (readString dp) :=
  simM_bind (simM_readUInt8 h) fun length =>
    simM_bind (simM_readCharCodes h length) fun buffer => simM_pure _

end BinaryReader

namespace DotNetBinaryReader

open BinaryReader

variable {d dp : List Nat}

theorem simM_readLengthPrefixedString (h : Compat d dp) :
    SimM d dp (readLengthPrefixedString d) (readLengthPrefixedString dp) :=
  simM_bind (simM_readUInt8 h) fun length =>
    simM_bind (simM_readCharCodes h length) fun buffer => simM_pure _

theorem simM_readDotNetChar (h : Compat d dp) :
    SimM d dp (readDotNetChar d) (readDotNetChar dp) :=
  simM_bind (simM_readInt8 h) fun _ => simM_pure _

theorem simM_readDecimal (h : Compat d dp) :
    SimM d dp (readDecimal d) (readDecimal dp) :=
  simM_readLengthPrefixedString h

theorem simM_readClassTypeInfo (h : Compat d dp) :
    SimM d dp (readClassTypeInfo d) (readClassTypeInfo dp) :=
  simM_bind (simM_readLengthPrefixedString h) fun _ =>
    simM_bind (simM_readInt32 h) fun _ => simM_pure _

theorem simM_readAdditionalInfo (h : Compat d dp) (t : Int) :
    SimM d dp (readAdditionalInfo d t) (readAdditionalInfo dp t) := by
  unfold readAdditionalInfo
  refine simM_ite
    (fun _ => simM_bind (simM_readInt8 h) fun _ => simM_pure _) fun _ => ?_
  refine simM_ite (fun _ => simM_pure _) fun _ => ?_
  refine simM_ite (fun _ => simM_pure _) fun _ => ?_
  refine simM_ite (fun _ => simM_thr _) fun _ => ?_
  refine simM_ite (fun _ => simM_readClassTypeInfo h) fun _ => ?_
  refine simM_ite (fun _ => simM_pure _) fun _ => ?_
  refine simM_ite (fun _ => simM_pure _) fun _ => ?_
  exact simM_ite
    (fun _ => simM_bind (simM_readInt8 h) fun _ => simM_pure _)
    fun _ => simM_pure _

theorem simM_readPrimitive (h : Compat d dp) (t : Int) :
    SimM d dp (readPrimitive d t) (readPrimitive dp t) := by
  unfold readPrimitive
  refine simM_ite
    (fun _ => simM_bind (simM_readInt8 h) fun _ => simM_pure _) fun _ => ?_
  refine simM_ite
    (fun _ => simM_bind (simM_readUInt8 h) fun _ => simM_pure _) fun _ => ?_
  refine simM_ite
    (fun _ => simM_bind (simM_readDotNetChar h) fun _ => simM_pure _)
    fun _ => ?_
  refine simM_ite (fun _ => simM_thr _) fun _ => ?_
  refine simM_ite
    (fun _ => simM_bind (simM_readDecimal h) fun _ => simM_pure _)
    fun _ => ?_
  refine simM_ite
    (fun _ => simM_bind (simM_readFloat64 h) fun _ => simM_pure _)
    fun _ => ?_
  refine simM_ite
    (fun _ => simM_bind (simM_readInt16 h) fun _ => simM_pure _) fun _ => ?_
  refine simM_ite
    (fun _ => simM_bind (simM_readInt32 h) fun _ => simM_pure _) fun _ => ?_
  refine simM_ite
    (fun _ => simM_bind (simM_readInt64 h) fun _ => simM_pure _) fun _ => ?_
  refine simM_ite
    (fun _ => simM_bind (simM_readInt8 h) fun _ => simM_pure _) fun _ => ?_
  refine simM_ite
    (fun _ => simM_bind (simM_readFloat32 h) fun _ => simM_pure _)
    fun _ => ?_
  refine simM_ite
    (fun _ => simM_bind (simM_readInt64 h) fun _ => simM_pure _) fun _ => ?_
  refine simM_ite
    (fun _ => simM_bind (simM_readInt64 h) fun _ => simM_pure _) fun _ => ?_
  refine simM_ite
    (fun _ => simM_bind (simM_readUInt16 h) fun _ => simM_pure _)
    fun _ => ?_
  refine simM_ite
    (fun _ => simM_bind (simM_readUInt32 h) fun _ => simM_pure _)
    fun _ => ?_
  refine simM_ite
    (fun _ => simM_bind (simM_readUInt64 h) fun _ => simM_pure _)
    fun _ => ?_
  refine simM_ite (fun _ => simM_thr _) fun _ => ?_
  exact simM_ite
    (fun _ => simM_bind (simM_readLengthPrefixedString h) fun _ =>
      simM_pure _)
    fun _ => simM_thr _

theorem simM_readPrimitiveOfAddInfo (h : Compat d dp) (a : AddInfo) :
    SimM d dp (readPrimitiveOfAddInfo d a) (readPrimitiveOfAddInfo dp a) := by
  cases a
  case primType n => exact simM_readPrimitive h n
  all_goals exact simM_thr _

theorem simM_readArrayInfo (h : Compat d dp) :
    SimM d dp (readArrayInfo d) (readArrayInfo dp) := by
  unfold readArrayInfo
  refine simM_bind (simM_readInt32 h) fun objectId => ?_
  refine simM_ite (fun _ => ?_) fun _ => simM_thr _
  refine simM_bind (simM_readInt32 h) fun length => ?_
  exact simM_ite (fun _ => simM_pure _) fun _ => simM_thr _

theorem simM_readMemberNames (h : Compat d dp) (n : Nat) :
    SimM d dp (readMemberNames d n) (readMemberNames dp n) := by
  induction n with
  | zero => exact simM_pure _
  | succ n ih =>
    exact simM_bind (simM_readLengthPrefixedString h) fun s =>
      simM_bind ih fun rest => simM_pure _

theorem simM_readClassInfo (h : Compat d dp) :
    SimM d dp (readClassInfo d) (readClassInfo dp) := by
  unfold readClassInfo
  refine simM_bind (simM_readInt32 h) fun objectId => ?_
  refine simM_bind (simM_readLengthPrefixedString h) fun name => ?_
  refine simM_bind (simM_readInt32 h) fun memberCount => ?_
  exact simM_ite
    (fun _ => simM_bind (simM_readMemberNames h _) fun names => simM_pure _)
    fun _ => simM_thr _

theorem simM_readBinaryTypeEnums (h : Compat d dp) (n : Nat) :
    SimM d dp (readBinaryTypeEnums d n) (readBinaryTypeEnums dp n) := by
  induction n with
  | zero => exact simM_pure _
  | succ n ih =>
    exact simM_bind (simM_readUInt8 h) fun b =>
      simM_bind ih fun rest => simM_pure _

theorem simM_readAdditionalInfos (h : Compat d dp) (es : List Nat) :
    SimM d dp (readAdditionalInfos d es) (readAdditionalInfos dp es) := by
  induction es with
  | nil => exact simM_pure _
  | cons e es ih =>
    exact simM_bind (simM_readAdditionalInfo h _) fun a =>
      simM_bind ih fun rest => simM_pure _

theorem simM_readMemberTypeInfo (h : Compat d dp) (ci : ClassInfo) :
    SimM d dp (readMemberTypeInfo d ci) (readMemberTypeInfo dp ci) :=
  simM_bind (simM_readBinaryTypeEnums h _) fun enums =>
    simM_bind (simM_readAdditionalInfos h enums) fun infos => simM_pure _

theorem simM_readMemberValuesFirstPass (h : Compat d dp)
    (pairs : List (Nat × AddInfo)) :
    SimM d dp (readMemberValuesFirstPass d pairs)
      (readMemberValuesFirstPass dp pairs) := by
  induction pairs with
  | nil => exact simM_pure _
  | cons pair rest ih =>
    obtain ⟨b, a⟩ := pair
    unfold readMemberValuesFirstPass
    refine simM_ite
      (fun _ => simM_bind (simM_readPrimitiveOfAddInfo h a) fun v =>
        simM_bind ih fun vs => simM_pure _)
      fun _ => ?_
    refine simM_ite
      (fun _ => simM_bind (simM_readLengthPrefixedString h) fun s =>
        simM_bind ih fun vs => simM_pure _)
      fun _ => ?_
    refine simM_ite (fun _ => simM_thr _) fun _ => ?_
    refine simM_ite (fun _ => simM_thr _) fun _ => ?_
    refine simM_ite
      (fun _ => simM_bind (simM_readInt8 h) fun rt =>
        simM_bind (simM_readInt32 h) fun idRef =>
          simM_bind ih fun vs => simM_pure _)
      fun _ => ?_
    refine simM_ite (fun _ => simM_thr _) fun _ => ?_
    refine simM_ite (fun _ => simM_thr _) fun _ => ?_
    exact simM_ite (fun _ => simM_bind ih fun vs => simM_pure _)
      fun _ => simM_bind ih fun vs => simM_pure _

theorem simM_readMemberValuesSecondPass (h : Compat d dp)
    (pairs : List (Nat × AddInfo)) :
    SimM d dp (readMemberValuesSecondPass d pairs)
      (readMemberValuesSecondPass dp pairs) := by
  induction pairs with
  | nil => exact simM_pure _
  | cons pair rest ih =>
    obtain ⟨b, a⟩ := pair
    unfold readMemberValuesSecondPass
    exact simM_ite
      (fun _ => simM_bind (simM_readInt8 h) fun _ =>
        simM_bind (simM_readArrayInfo h) fun _ => ih)
      fun _ => ih

theorem simM_readClassMemberValues (h : Compat d dp) (ci : ClassInfo)
    (mti : MemberTypeInfo) :
    SimM d dp (readClassMemberValues d ci mti)
      (readClassMemberValues dp ci mti) :=
  simM_bind (simM_readMemberValuesFirstPass h _) fun vs =>
    simM_bind (simM_readMemberValuesSecondPass h _) fun _ => simM_pure _

theorem simM_readArraySinglePrimitive (h : Compat d dp)
    (prev : List Record) :
    SimM d dp (readArraySinglePrimitive d prev)
      (readArraySinglePrimitive dp prev) := by
  unfold readArraySinglePrimitive
  refine simM_bind (simM_readArrayInfo h) fun ai => ?_
  refine simM_bind (simM_readInt8 h) fun t => ?_
  exact simM_ite (fun _ => simM_pure _) fun _ => simM_thr _

theorem simM_readInt32List (h : Compat d dp) (n : Nat) :
    SimM d dp (readInt32List d n) (readInt32List dp n) := by
  induction n with
  | zero => exact simM_pure _
  | succ n ih =>
    exact simM_bind (simM_readInt32 h) fun i =>
      simM_bind ih fun rest => simM_pure _

theorem simM_readBinaryArray (h : Compat d dp) (prev : List Record) :
    SimM d dp (readBinaryArray d prev) (readBinaryArray dp prev) := by
  unfold readBinaryArray
  refine simM_bind (simM_readInt32 h) fun objectId => ?_
  refine simM_bind (simM_readInt8 h) fun bat => ?_
  refine simM_ite (fun _ => ?_) fun _ => simM_thr _
  refine simM_bind (simM_readInt32 h) fun rank => ?_
  refine simM_ite (fun _ => ?_) fun _ => simM_thr _
  refine simM_bind (simM_readInt32List h _) fun lengths => ?_
  refine simM_ite (fun _ => ?_) fun _ => simM_thr _
  refine simM_ite (fun _ => ?_) fun _ => ?_
  · refine simM_bind (simM_readInt32List h _) fun lbs => ?_
    refine simM_bind (simM_pure _) fun lowerBounds => ?_
    refine simM_bind (simM_readInt8 h) fun typeEnum => ?_
    exact simM_ite
      (fun _ =>
        simM_bind (simM_readAdditionalInfo h _) fun ati => simM_pure _)
      fun _ => simM_thr _
  · refine simM_bind (simM_pure _) fun lowerBounds => ?_
    refine simM_bind (simM_readInt8 h) fun typeEnum => ?_
    exact simM_ite
      (fun _ =>
        simM_bind (simM_readAdditionalInfo h _) fun ati => simM_pure _)
      fun _ => simM_thr _

theorem simM_readBinaryLibrary (h : Compat d dp) (prev : List Record) :
    SimM d dp (readBinaryLibrary d prev) (readBinaryLibrary dp prev) := by
  unfold readBinaryLibrary
  refine simM_bind (simM_readUInt32 h) fun libraryId => ?_
  refine simM_bind (simM_readLengthPrefixedString h) fun name => ?_
  exact simM_ite (fun _ => simM_pure _) fun _ => simM_thr _

theorem simM_readClassWithId (h : Compat d dp) (prev : List Record) :
    SimM d dp (readClassWithId d prev) (readClassWithId dp prev) := by
  unfold readClassWithId
  refine simM_bind (simM_readInt32 h) fun objectId => ?_
  refine simM_bind (simM_readInt32 h) fun metadataId => ?_
  cases findRelevantClassRecord prev metadataId with
  | none => exact simM_thr _
  | some r =>
    exact simM_bind (simM_readClassMemberValues h _ _) fun mv => simM_pure _

theorem simM_readClassWithMembersAndTypes (h : Compat d dp)
    (prev : List Record) :
    SimM d dp (readClassWithMembersAndTypes d prev)
      (readClassWithMembersAndTypes dp prev) :=
  simM_bind (simM_readClassInfo h) fun ci =>
    simM_bind (simM_readMemberTypeInfo h ci) fun mti =>
      simM_bind (simM_readUInt32 h) fun lib =>
        simM_bind (simM_readClassMemberValues h ci mti) fun mv => simM_pure _

theorem simM_readMemberReference (h : Compat d dp) (prev : List Record) :
    SimM d dp (readMemberReference d prev) (readMemberReference dp prev) := by
  unfold readMemberReference
  refine simM_bind (simM_readInt32 h) fun idRef => ?_
  exact simM_ite (fun _ => simM_pure _) fun _ => simM_thr _

theorem simM_readSerializationHeader (h : Compat d dp)
    (prev : List Record) :
    SimM d dp (readSerializationHeader d prev)
      (readSerializationHeader dp prev) := by
  unfold readSerializationHeader
  refine simM_bind (simM_readInt32 h) fun rootId => ?_
  refine simM_bind (simM_readInt32 h) fun headerId => ?_
  refine simM_bind (simM_readInt32 h) fun maj => ?_
  refine simM_bind (simM_readInt32 h) fun mino => ?_
  exact simM_ite
    (fun _ => simM_ite (fun _ => simM_pure _) fun _ => simM_thr _)
    fun _ => simM_thr _

theorem simM_readLoop (h : Compat d dp) :
    ∀ fuel records,
      SimM d dp (readLoop d fuel records) (readLoop dp fuel records) := by
  intro fuel
  induction fuel with
  | zero => exact fun records => simM_thr _
  | succ fuel ih =>
    intro records
    unfold readLoop
    refine simM_bind (simM_readInt8 h) fun recordType => ?_
    refine simM_ite
      (fun _ => simM_bind (simM_readSerializationHeader h _) fun r => ih _)
      fun _ => ?_
    refine simM_ite
      (fun _ => simM_bind (simM_readClassWithId h _) fun r => ih _)
      fun _ => ?_
    refine simM_ite (fun _ => simM_thr _) fun _ => ?_
    refine simM_ite (fun _ => simM_thr _) fun _ => ?_
    refine simM_ite (fun _ => simM_thr _) fun _ => ?_
    refine simM_ite
      (fun _ =>
        simM_bind (simM_readClassWithMembersAndTypes h _) fun r => ih _)
      fun _ => ?_
    refine simM_ite (fun _ => simM_thr _) fun _ => ?_
    refine simM_ite
      (fun _ => simM_bind (simM_readBinaryArray h _) fun r => ih _)
      fun _ => ?_
    refine simM_ite (fun _ => simM_thr _) fun _ => ?_
    refine simM_ite
      (fun _ => simM_bind (simM_readMemberReference h _) fun r => ih _)
      fun _ => ?_
    refine simM_ite (fun _ => simM_thr _) fun _ => ?_
    refine simM_ite (fun _ => simM_pure _) fun _ => ?_
    refine simM_ite
      (fun _ => simM_bind (simM_readBinaryLibrary h _) fun r => ih _)
      fun _ => ?_
    refine simM_ite (fun _ => simM_thr _) fun _ => ?_
    refine simM_ite (fun _ => simM_thr _) fun _ => ?_
    refine simM_ite
      (fun _ => simM_bind (simM_readArraySinglePrimitive h _) fun r => ih _)
      fun _ => ?_
    refine simM_ite (fun _ => simM_thr _) fun _ => ?_
    refine simM_ite (fun _ => simM_thr _) fun _ => ?_
    refine simM_ite (fun _ => simM_thr _) fun _ => ?_
    exact simM_ite (fun _ => simM_thr _) fun _ => simM_thr _

/-- Changing only the byte at offset 0 of the buffer cannot change the
result of `read`. -/
theorem read_compat {d dp : List Nat} (h : Compat d dp) :
    read d = read dp := by
  unfold read
  have hlen : d.length = dp.length := h.1
  rw [hlen]
  exact (simM_readLoop h (dp.length + 1) []).2 initialPosition (le_refl 1)

/-- On success the final cursor of `read` never lies beyond the end of
the buffer: a decode that would have to read past the end fails instead
(`TruncatedInput`), so no partially decoded record log is returned. -/
theorem read_pos_le_length {d : List Nat} {records : List Record} {q : Nat}
    (h : read d = Except.ok (records, q)) : q ≤ d.length := by
  have hgood := (simM_readLoop (Compat.refl d) (d.length + 1) []).1
  cases d with
  | nil => cases h
  | cons b rest =>
    have := hgood initialPosition records q h
    exact this.2 (by simp [initialPosition])

end DotNetBinaryReader

/-- Step through an if-chain of reader computations: a branch whose
condition is false. -/
theorem ite_app_neg {α : Type} {c : Prop} [Decidable c] {m rest : M α}
    {q : Nat} {r : Except Err (α × Nat)} (hc : ¬c) (h : rest q = r) :
    (if c then m else rest) q = r := by
  rw [if_neg hc]
  exact h

/-- Step through an if-chain of reader computations: a throw branch
agreeing with the final error, whatever the condition. -/
theorem ite_app_error {α : Type} {c : Prop} [Decidable c] {rest : M α}
    {q : Nat} {e : Err} (h : ¬c → rest q = Except.error e) :
    (if c then (thr e : M α) else rest) q = Except.error e := by
  by_cases hc : c
  · rw [if_pos hc]
    rfl
  · rw [if_neg hc]
    exact h hc

/-!
Computations that can never fail with `UnresolvedReference`: the whole
member-value decoding path has this property, which pins the
`UnresolvedReference` failure of a `ClassWithId` record to the
previous-records scan alone.
-/

/-- The computation never fails with `UnresolvedReference`. -/
def NoUnres {α : Type} (m : M α) : Prop :=
  ∀ p, m p ≠ Except.error Err.unresolvedReference

theorem noUnres_pure {α : Type} (a : α) : NoUnres (pure a : M α) := by
  intro p h
  rw [pure_apply] at h
  cases h

theorem noUnres_thr {α : Type} {e : Err}
    (he : e ≠ Err.unresolvedReference) : NoUnres (thr e : M α) := by
  intro p h
  rw [thr_apply] at h
  exact he (Except.error.inj h)

theorem noUnres_bind {α β : Type} {m : M α} {k : α → M β}
    (hm : NoUnres m) (hk : ∀ a, NoUnres (k a)) : NoUnres (m >>= k) := by
  intro p h
  rw [bind_apply] at h
  cases hmp : m p with
  | error e => rw [hmp] at h; exact hm p (hmp.trans (congrArg Except.error (Except.error.inj h)))
  | ok aq =>
    obtain ⟨a, q⟩ := aq
    rw [hmp] at h
    exact hk a q h

theorem noUnres_ite {α : Type} {c : Prop} [Decidable c] {m1 m2 : M α}
    (h1 : c → NoUnres m1) (h2 : ¬c → NoUnres m2) :
    NoUnres (if c then m1 else m2) := by
  by_cases hc : c
  · rw [if_pos hc]; exact h1 hc
  · rw [if_neg hc]; exact h2 hc

theorem noUnres_readBytes (d : List Nat) (w : Nat) :
    NoUnres (BinaryReader.readBytes d w) := by
  intro p h
  unfold BinaryReader.readBytes at h
  by_cases hb : p + w ≤ d.length
  · rw [if_pos hb] at h; cases h
  · rw [if_neg hb] at h; cases h

theorem noUnres_mapBytes {α : Type} (d : List Nat) (w : Nat)
    (f : List Nat → α) :
    NoUnres (BinaryReader.readBytes d w >>= fun bs => pure (f bs)) :=
  noUnres_bind (noUnres_readBytes d w) fun _ => noUnres_pure _

namespace BinaryReader

theorem noUnres_readUInt8 (d : List Nat) : NoUnres (readUInt8 d) :=
  noUnres_mapBytes d 1 _

theorem noUnres_readInt8 (d : List Nat) : NoUnres (readInt8 d) :=
  noUnres_mapBytes d 1 _

theorem noUnres_readUInt16 (d : List Nat) : NoUnres (readUInt16 d) :=
  noUnres_mapBytes d 2 _

theorem noUnres_readInt16 (d : List Nat) : NoUnres (readInt16 d) :=
  noUnres_mapBytes d 2 _

theorem noUnres_readUInt32 (d : List Nat) : NoUnres (readUInt32 d) :=
  noUnres_mapBytes d 4 _

theorem noUnres_readInt32 (d : List Nat) : NoUnres (readInt32 d) :=
  noUnres_mapBytes d 4 _

theorem noUnres_readUInt64 (d : List Nat) : NoUnres (readUInt64 d) :=
  noUnres_mapBytes d 8 _

theorem noUnres_readInt64 (d : List Nat) : NoUnres (readInt64 d) :=
  noUnres_mapBytes d 8 _

theorem noUnres_readFloat32 (d : List Nat) : NoUnres (readFloat32 d) :=
  noUnres_mapBytes d 4 _

theorem noUnres_readFloat64 (d : List Nat) : NoUnres (readFloat64 d) :=
  noUnres_mapBytes d 8 _

theorem noUnres_readCharCodes (d : List Nat) (n : Nat) :
    NoUnres (readCharCodes d n) := by
  induction n with
  | zero => exact noUnres_pure _
  | succ n ih =>
    exact noUnres_bind (noUnres_readUInt8 d) fun b =>
      noUnres_bind ih fun rest => noUnres_pure _

end BinaryReader

namespace DotNetBinaryReader

open BinaryReader

theorem noUnres_readLengthPrefixedString (d : List Nat) :
    NoUnres (readLengthPrefixedString d) :=
  noUnres_bind (noUnres_readUInt8 d) fun length =>
    noUnres_bind (noUnres_readCharCodes d length) fun buffer =>
      noUnres_pure _

theorem noUnres_readDotNetChar (d : List Nat) :
    NoUnres (readDotNetChar d) :=
  noUnres_bind (noUnres_readInt8 d) fun _ => noUnres_pure _

theorem noUnres_readDecimal (d : List Nat) : NoUnres (readDecimal d) :=
  noUnres_readLengthPrefixedString d

theorem noUnres_readPrimitive (d : List Nat) (t : Int) :
    NoUnres (readPrimitive d t) := by
  unfold readPrimitive
  refine noUnres_ite
    (fun _ => noUnres_bind (noUnres_readInt8 d) fun _ => noUnres_pure _)
    fun _ => ?_
  refine noUnres_ite
    (fun _ => noUnres_bind (noUnres_readUInt8 d) fun _ => noUnres_pure _)
    fun _ => ?_
  refine noUnres_ite
    (fun _ => noUnres_bind (noUnres_readDotNetChar d) fun _ => noUnres_pure _)
    fun _ => ?_
  refine noUnres_ite (fun _ => noUnres_thr (by decide)) fun _ => ?_
  refine noUnres_ite
    (fun _ => noUnres_bind (noUnres_readDecimal d) fun _ => noUnres_pure _)
    fun _ => ?_
  refine noUnres_ite
    (fun _ => noUnres_bind (noUnres_readFloat64 d) fun _ => noUnres_pure _)
    fun _ => ?_
  refine noUnres_ite
    (fun _ => noUnres_bind (noUnres_readInt16 d) fun _ => noUnres_pure _)
    fun _ => ?_
  refine noUnres_ite
    (fun _ => noUnres_bind (noUnres_readInt32 d) fun _ => noUnres_pure _)
    fun _ => ?_
  refine noUnres_ite
    (fun _ => noUnres_bind (noUnres_readInt64 d) fun _ => noUnres_pure _)
    fun _ => ?_
  refine noUnres_ite
    (fun _ => noUnres_bind (noUnres_readInt8 d) fun _ => noUnres_pure _)
    fun _ => ?_
  refine noUnres_ite
    (fun _ => noUnres_bind (noUnres_readFloat32 d) fun _ => noUnres_pure _)
    fun _ => ?_
  refine noUnres_ite
    (fun _ => noUnres_bind (noUnres_readInt64 d) fun _ => noUnres_pure _)
    fun _ => ?_
  refine noUnres_ite
    (fun _ => noUnres_bind (noUnres_readInt64 d) fun _ => noUnres_pure _)
    fun _ => ?_
  refine noUnres_ite
    (fun _ => noUnres_bind (noUnres_readUInt16 d) fun _ => noUnres_pure _)
    fun _ => ?_
  refine noUnres_ite
    (fun _ => noUnres_bind (noUnres_readUInt32 d) fun _ => noUnres_pure _)
    fun _ => ?_
  refine noUnres_ite
    (fun _ => noUnres_bind (noUnres_readUInt64 d) fun _ => noUnres_pure _)
    fun _ => ?_
  refine noUnres_ite (fun _ => noUnres_thr (by decide)) fun _ => ?_
  exact noUnres_ite
    (fun _ => noUnres_bind (noUnres_readLengthPrefixedString d) fun _ =>
      noUnres_pure _)
    fun _ => noUnres_thr (by decide)

theorem noUnres_readPrimitiveOfAddInfo (d : List Nat) (a : AddInfo) :
    NoUnres (readPrimitiveOfAddInfo d a) := by
  cases a
  case primType n => exact noUnres_readPrimitive d n
  all_goals exact noUnres_thr (by decide)

theorem noUnres_readArrayInfo (d : List Nat) : NoUnres (readArrayInfo d) := by
  unfold readArrayInfo
  refine noUnres_bind (noUnres_readInt32 d) fun objectId => ?_
  refine noUnres_ite (fun _ => ?_) fun _ => noUnres_thr (by decide)
  refine noUnres_bind (noUnres_readInt32 d) fun length => ?_
  exact noUnres_ite (fun _ => noUnres_pure _) fun _ => noUnres_thr (by decide)

theorem noUnres_readMemberValuesFirstPass (d : List Nat)
    (pairs : List (Nat × AddInfo)) :
    NoUnres (readMemberValuesFirstPass d pairs) := by
  induction pairs with
  | nil => exact noUnres_pure _
  | cons pair rest ih =>
    obtain ⟨b, a⟩ := pair
    unfold readMemberValuesFirstPass
    refine noUnres_ite
      (fun _ => noUnres_bind (noUnres_readPrimitiveOfAddInfo d a) fun v =>
        noUnres_bind ih fun vs => noUnres_pure _)
      fun _ => ?_
    refine noUnres_ite
      (fun _ => noUnres_bind (noUnres_readLengthPrefixedString d) fun s =>
        noUnres_bind ih fun vs => noUnres_pure _)
      fun _ => ?_
    refine noUnres_ite (fun _ => noUnres_thr (by decide)) fun _ => ?_
    refine noUnres_ite (fun _ => noUnres_thr (by decide)) fun _ => ?_
    refine noUnres_ite
      (fun _ => noUnres_bind (noUnres_readInt8 d) fun rt =>
        noUnres_bind (noUnres_readInt32 d) fun idRef =>
          noUnres_bind ih fun vs => noUnres_pure _)
      fun _ => ?_
    refine noUnres_ite (fun _ => noUnres_thr (by decide)) fun _ => ?_
    refine noUnres_ite (fun _ => noUnres_thr (by decide)) fun _ => ?_
    exact noUnres_ite (fun _ => noUnres_bind ih fun vs => noUnres_pure _)
      fun _ => noUnres_bind ih fun vs => noUnres_pure _

theorem noUnres_readMemberValuesSecondPass (d : List Nat)
    (pairs : List (Nat × AddInfo)) :
    NoUnres (readMemberValuesSecondPass d pairs) := by
  induction pairs with
  | nil => exact noUnres_pure _
  | cons pair rest ih =>
    obtain ⟨b, a⟩ := pair
    unfold readMemberValuesSecondPass
    exact noUnres_ite
      (fun _ => noUnres_bind (noUnres_readInt8 d) fun _ =>
        noUnres_bind (noUnres_readArrayInfo d) fun _ => ih)
      fun _ => ih

theorem noUnres_readClassMemberValues (d : List Nat) (ci : ClassInfo)
    (mti : MemberTypeInfo) : NoUnres (readClassMemberValues d ci mti) :=
  noUnres_bind (noUnres_readMemberValuesFirstPass d _) fun vs =>
    noUnres_bind (noUnres_readMemberValuesSecondPass d _) fun _ =>
      noUnres_pure _

/-!
Facts about the `#readClassWithId` previous-records scan.
-/

theorem foldl_find_none_iff (l : List Record) (mid : Int) :
    ∀ acc : Option Record,
      (l.foldl
        (fun acc r =>
          if isRelevantClassRecord mid r then some r else acc) acc = none) ↔
      (acc = none ∧ ∀ r ∈ l, isRelevantClassRecord mid r = false) := by
  induction l with
  | nil => intro acc; simp
  | cons r l ih =>
    intro acc
    rw [List.foldl_cons, ih]
    by_cases hr : isRelevantClassRecord mid r
    · rw [if_pos hr]
      simp [hr]
    · rw [if_neg hr]
      simp only [List.mem_cons]
      constructor
      · rintro ⟨h1, h2⟩
        refine ⟨h1, ?_⟩
        rintro x (rfl | hx)
        · exact Bool.eq_false_iff.mpr hr
        · exact h2 x hx
      · rintro ⟨h1, h2⟩
        exact ⟨h1, fun x hx => h2 x (Or.inr hx)⟩

/-- The scan yields nothing exactly when no previous record is a
class-defining record whose ObjectId equals the MetadataId. -/
theorem findRelevantClassRecord_eq_none_iff (prev : List Record)
    (mid : Int) :
    findRelevantClassRecord prev mid = none ↔
      ∀ r ∈ prev, isRelevantClassRecord mid r = false := by
  unfold findRelevantClassRecord
  rw [foldl_find_none_iff]
  simp

theorem foldl_find_some_rel (l : List Record) (mid : Int) :
    ∀ acc : Option Record,
      (∀ x, acc = some x → isRelevantClassRecord mid x = true) →
      ∀ r, l.foldl
        (fun acc r =>
          if isRelevantClassRecord mid r then some r else acc) acc = some r →
      isRelevantClassRecord mid r = true := by
  induction l with
  | nil =>
    intro acc hacc r h
    exact hacc r h
  | cons x l ih =>
    intro acc hacc r h
    rw [List.foldl_cons] at h
    refine ih _ ?_ r h
    intro y hy
    by_cases hx : isRelevantClassRecord mid x
    · rw [if_pos hx] at hy
      cases hy
      exact hx
    · rw [if_neg hx] at hy
      exact hacc y hy

/-- A record produced by the scan is a `classWithMembersAndTypes` whose
ClassInfo ObjectId equals the MetadataId. -/
theorem findRelevantClassRecord_some_shape {prev : List Record} {mid : Int}
    {r : Record} (h : findRelevantClassRecord prev mid = some r) :
    ∃ ci mti lib mv, r = Record.classWithMembersAndTypes ci mti lib mv ∧
      ci.objectId = mid := by
  have hrel : isRelevantClassRecord mid r = true :=
    foldl_find_some_rel prev mid none (by intro x hx; cases hx) r h
  cases r with
  | classWithMembersAndTypes ci mti lib mv =>
    refine ⟨ci, mti, lib, mv, rfl, ?_⟩
    unfold isRelevantClassRecord at hrel
    exact beq_iff_eq.mp hrel
  | serializationHeader a b c e => cases hrel
  | classWithId a b c => cases hrel
  | memberReference a => cases hrel
  | binaryArray a b c e f g i => cases hrel
  | binaryLibrary a b => cases hrel
  | arraySinglePrimitive a b => cases hrel

end DotNetBinaryReader

/-!
Truncation behaviour of the Primitive Reader.
-/

namespace BinaryReader

theorem readBytes_truncated {d : List Nat} {p w : Nat}
    (h : d.length < p + w) :
    readBytes d w p = Except.error Err.truncatedInput := by
  unfold readBytes
  rw [if_neg (by omega)]

theorem mapBytes_truncated {α : Type} {d : List Nat} {p w : Nat}
    (f : List Nat → α) (h : d.length < p + w) :
    (readBytes d w >>= fun bs => pure (f bs)) p =
      Except.error Err.truncatedInput := by
  rw [bind_apply, readBytes_truncated h]

theorem readUInt8_ok {d : List Nat} {p b : Nat} (h : d[p]? = some b) :
    readUInt8 d p = Except.ok (b, p + 1) := by
  have hp : p < d.length := by
    by_contra hc
    rw [List.getElem?_eq_none (by omega)] at h
    cases h
  unfold readUInt8
  rw [bind_apply]
  unfold readBytes
  rw [if_pos (by omega)]
  dsimp only
  rw [pure_apply]
  unfold bytesAt
  have hdrop : (d.drop p)[0]? = some b := by
    rw [List.getElem?_drop]
    simpa using h
  cases hd : d.drop p with
  | nil => rw [hd] at hdrop; cases hdrop
  | cons a t =>
    rw [hd] at hdrop
    simp only [List.getElem?_cons_zero, Option.some.injEq] at hdrop
    subst hdrop
    simp [leNat]

theorem readCharCodes_truncated {d : List Nat} :
    ∀ (n : Nat) (p : Nat), 1 ≤ n → d.length < p + n →
      readCharCodes d n p = Except.error Err.truncatedInput := by
  intro n
  induction n with
  | zero => intro p h1 _; omega
  | succ n ih =>
    intro p _ h2
    unfold readCharCodes
    rw [bind_apply]
    by_cases hb : p + 1 ≤ d.length
    · have hp : p < d.length := by omega
      have hg : d[p]? = some d[p] := List.getElem?_eq_getElem hp
      rw [readUInt8_ok hg]
      dsimp only
      rw [bind_apply, ih (p + 1) (by omega) (by omega)]
    · rw [readUInt8_truncated_aux (by omega)]
where
  readUInt8_truncated_aux {p : Nat} (h : d.length < p + 1) :
      readUInt8 d p = Except.error Err.truncatedInput := by
    unfold readUInt8
    exact mapBytes_truncated _ h

theorem readUInt8_truncated {d : List Nat} {p : Nat}
    (h : d.length < p + 1) :
    readUInt8 d p = Except.error Err.truncatedInput := by
  unfold readUInt8
  exact mapBytes_truncated _ h

theorem readInt8_truncated {d : List Nat} {p : Nat} (h : d.length < p + 1) :
    readInt8 d p = Except.error Err.truncatedInput := by
  unfold readInt8
  exact mapBytes_truncated _ h

theorem readUInt16_truncated {d : List Nat} {p : Nat}
    (h : d.length < p + 2) :
    readUInt16 d p = Except.error Err.truncatedInput := by
  unfold readUInt16
  exact mapBytes_truncated _ h

theorem readInt16_truncated {d : List Nat} {p : Nat} (h : d.length < p + 2) :
    readInt16 d p = Except.error Err.truncatedInput := by
  unfold readInt16
  exact mapBytes_truncated _ h

theorem readUInt32_truncated {d : List Nat} {p : Nat}
    (h : d.length < p + 4) :
    readUInt32 d p = Except.error Err.truncatedInput := by
  unfold readUInt32
  exact mapBytes_truncated _ h

theorem readInt32_truncated {d : List Nat} {p : Nat} (h : d.length < p + 4) :
    readInt32 d p = Except.error Err.truncatedInput := by
  unfold readInt32
  exact mapBytes_truncated _ h

theorem readUInt64_truncated {d : List Nat} {p : Nat}
    (h : d.length < p + 8) :
    readUInt64 d p = Except.error Err.truncatedInput := by
  unfold readUInt64
  exact mapBytes_truncated _ h

theorem readInt64_truncated {d : List Nat} {p : Nat} (h : d.length < p + 8) :
    readInt64 d p = Except.error Err.truncatedInput := by
  unfold readInt64
  exact mapBytes_truncated _ h

theorem readFloat32_truncated {d : List Nat} {p : Nat}
    (h : d.length < p + 4) :
    readFloat32 d p = Except.error Err.truncatedInput := by
  unfold readFloat32
  exact mapBytes_truncated _ h

theorem readFloat64_truncated {d : List Nat} {p : Nat}
    (h : d.length < p + 8) :
    readFloat64 d p = Except.error Err.truncatedInput := by
  unfold readFloat64
  exact mapBytes_truncated _ h

theorem readChar_truncated {d : List Nat} {p : Nat} (h : d.length < p + 1) :
    readChar d p = Except.error Err.truncatedInput := by
  unfold readChar
  rw [bind_apply, readUInt8_truncated h]

theorem readString_truncated_length {d : List Nat} {p : Nat}
    (h : d.length < p + 1) :
    readString d p = Except.error Err.truncatedInput := by
  unfold readString
  rw [bind_apply, readUInt8_truncated h]

theorem readString_truncated_data {d : List Nat} {p L : Nat}
    (hL : d[p]? = some L) (h : d.length < p + 1 + L) :
    readString d p = Except.error Err.truncatedInput := by
  have hp : p < d.length := by
    by_contra hc
    rw [List.getElem?_eq_none (by omega)] at hL
    cases hL
  unfold readString
  rw [bind_apply, readUInt8_ok hL]
  dsimp only
  rw [bind_apply, readCharCodes_truncated L (p + 1) (by omega) (by omega)]

end BinaryReader

/-!
Unfolding facts about the read loop.
-/

namespace DotNetBinaryReader

open BinaryReader

theorem readInt8_ok_advance {d : List Nat} {p q : Nat} {t : Int}
    (h : readInt8 d p = Except.ok (t, q)) : q = p + 1 := by
  unfold readInt8 at h
  rw [bind_apply] at h
  unfold readBytes at h
  by_cases hb : p + 1 ≤ d.length
  · rw [if_pos hb] at h
    dsimp only at h
    rw [pure_apply] at h
    cases h
    rfl
  · rw [if_neg hb] at h
    cases h

/-- When the tag byte is the MessageEnd terminator (11), the loop
returns the accumulated records unchanged, with the cursor just past
the tag byte. -/
theorem readLoop_messageEnd {d : List Nat} {p q : Nat} (fuel : Nat)
    (acc : List Record) (h : readInt8 d p = Except.ok (11, q)) :
    readLoop d (fuel + 1) acc p = Except.ok (acc, q) := by
  conv_lhs => unfold readLoop
  rw [bind_apply, h]
  dsimp only
  norm_num
  rfl

theorem readLoop_step_serializationHeader {d : List Nat} {p q : Nat}
    (fuel : Nat) (acc : List Record)
    (h : readInt8 d p = Except.ok (0, q)) :
    readLoop d (fuel + 1) acc p =
      (readSerializationHeader d acc >>= fun r =>
        readLoop d fuel (acc ++ [r])) q := by
  conv_lhs => unfold readLoop
  rw [bind_apply, h]
  dsimp only
  norm_num

theorem readLoop_step_classWithId {d : List Nat} {p q : Nat} (fuel : Nat)
    (acc : List Record) (h : readInt8 d p = Except.ok (1, q)) :
    readLoop d (fuel + 1) acc p =
      (readClassWithId d acc >>= fun r =>
        readLoop d fuel (acc ++ [r])) q := by
  conv_lhs => unfold readLoop
  rw [bind_apply, h]
  dsimp only
  norm_num

theorem readLoop_step_classWithMembersAndTypes {d : List Nat} {p q : Nat}
    (fuel : Nat) (acc : List Record)
    (h : readInt8 d p = Except.ok (5, q)) :
    readLoop d (fuel + 1) acc p =
      (readClassWithMembersAndTypes d acc >>= fun r =>
        readLoop d fuel (acc ++ [r])) q := by
  conv_lhs => unfold readLoop
  rw [bind_apply, h]
  dsimp only
  norm_num

theorem readLoop_step_binaryArray {d : List Nat} {p q : Nat} (fuel : Nat)
    (acc : List Record) (h : readInt8 d p = Except.ok (7, q)) :
    readLoop d (fuel + 1) acc p =
      (readBinaryArray d acc >>= fun r =>
        readLoop d fuel (acc ++ [r])) q := by
  conv_lhs => unfold readLoop
  rw [bind_apply, h]
  dsimp only
  norm_num

theorem readLoop_step_memberReference {d : List Nat} {p q : Nat}
    (fuel : Nat) (acc : List Record)
    (h : readInt8 d p = Except.ok (9, q)) :
    readLoop d (fuel + 1) acc p =
      (readMemberReference d acc >>= fun r =>
        readLoop d fuel (acc ++ [r])) q := by
  conv_lhs => unfold readLoop
  rw [bind_apply, h]
  dsimp only
  norm_num

theorem readLoop_step_binaryLibrary {d : List Nat} {p q : Nat} (fuel : Nat)
    (acc : List Record) (h : readInt8 d p = Except.ok (12, q)) :
    readLoop d (fuel + 1) acc p =
      (readBinaryLibrary d acc >>= fun r =>
        readLoop d fuel (acc ++ [r])) q := by
  conv_lhs => unfold readLoop
  rw [bind_apply, h]
  dsimp only
  norm_num

theorem readLoop_step_arraySinglePrimitive {d : List Nat} {p q : Nat}
    (fuel : Nat) (acc : List Record)
    (h : readInt8 d p = Except.ok (15, q)) :
    readLoop d (fuel + 1) acc p =
      (readArraySinglePrimitive d acc >>= fun r =>
        readLoop d fuel (acc ++ [r])) q := by
  conv_lhs => unfold readLoop
  rw [bind_apply, h]
  dsimp only
  norm_num

/-- A tag byte outside of the supported dispatch set makes the loop
fail with `UnsupportedRecordType` (both the explicit unimplemented tags
and the default case of the switch). -/
theorem readLoop_unsupported {d : List Nat} {p q : Nat} {t : Int}
    (fuel : Nat) (acc : List Record) (ht : readInt8 d p = Except.ok (t, q))
    (h0 : t ≠ 0) (h1 : t ≠ 1) (h5 : t ≠ 5) (h7 : t ≠ 7) (h9 : t ≠ 9)
    (h11 : t ≠ 11) (h12 : t ≠ 12) (h15 : t ≠ 15) :
    readLoop d (fuel + 1) acc p = Except.error Err.unsupportedRecordType := by
  conv_lhs => unfold readLoop
  rw [bind_apply, ht]
  dsimp only
  refine ite_app_neg h0 ?_
  refine ite_app_neg h1 ?_
  iterate 3 refine ite_app_error fun _ => ?_
  refine ite_app_neg h5 ?_
  refine ite_app_error fun _ => ?_
  refine ite_app_neg h7 ?_
  refine ite_app_error fun _ => ?_
  refine ite_app_neg h9 ?_
  refine ite_app_error fun _ => ?_
  refine ite_app_neg h11 ?_
  refine ite_app_neg h12 ?_
  iterate 2 refine ite_app_error fun _ => ?_
  refine ite_app_neg h15 ?_
  iterate 4 refine ite_app_error fun _ => ?_
  rfl

theorem readLoop_extends_aux {d : List Nat} {fuel : Nat}
    {acc res : List Record} {q q1 : Nat} (reader : M Record)
    (ih : ∀ (acc : List Record) (p : Nat) (res : List Record) (q : Nat),
      readLoop d fuel acc p = Except.ok (res, q) → ∃ rs, res = acc ++ rs)
    (h : (reader >>= fun r => readLoop d fuel (acc ++ [r])) q1 =
      Except.ok (res, q)) :
    ∃ rs, res = acc ++ rs := by
  rw [bind_apply] at h
  split at h
  · cases h
  · rename_i a q2 heq
    obtain ⟨rs, hrs⟩ := ih _ _ _ _ h
    exact ⟨a :: rs, by simp [hrs]⟩

/-- Whatever the loop returns on success extends the accumulator it was
started with: records are only ever appended, in decode order. -/
theorem readLoop_extends {d : List Nat} :
    ∀ (fuel : Nat) (acc : List Record) (p : Nat) (res : List Record)
      (q : Nat), readLoop d fuel acc p = Except.ok (res, q) →
      ∃ rs, res = acc ++ rs := by
  intro fuel
  induction fuel with
  | zero => intro acc p res q h; cases h
  | succ fuel ih =>
    intro acc p res q h
    cases ht : readInt8 d p with
    | error e =>
      have herr : readLoop d (fuel + 1) acc p = Except.error e := by
        conv_lhs => unfold readLoop
        rw [bind_apply, ht]
      rw [herr] at h
      cases h
    | ok tq =>
      obtain ⟨t, q1⟩ := tq
      by_cases h0 : t = 0
      · subst h0
        rw [readLoop_step_serializationHeader fuel acc ht] at h
        exact readLoop_extends_aux _ ih h
      by_cases h1 : t = 1
      · subst h1
        rw [readLoop_step_classWithId fuel acc ht] at h
        exact readLoop_extends_aux _ ih h
      by_cases h5 : t = 5
      · subst h5
        rw [readLoop_step_classWithMembersAndTypes fuel acc ht] at h
        exact readLoop_extends_aux _ ih h
      by_cases h7 : t = 7
      · subst h7
        rw [readLoop_step_binaryArray fuel acc ht] at h
        exact readLoop_extends_aux _ ih h
      by_cases h9 : t = 9
      · subst h9
        rw [readLoop_step_memberReference fuel acc ht] at h
        exact readLoop_extends_aux _ ih h
      by_cases h11 : t = 11
      · subst h11
        rw [readLoop_messageEnd fuel acc ht] at h
        cases h
        exact ⟨[], by simp⟩
      by_cases h12 : t = 12
      · subst h12
        rw [readLoop_step_binaryLibrary fuel acc ht] at h
        exact readLoop_extends_aux _ ih h
      by_cases h15 : t = 15
      · subst h15
        rw [readLoop_step_arraySinglePrimitive fuel acc ht] at h
        exact readLoop_extends_aux _ ih h
      rw [readLoop_unsupported fuel acc ht h0 h1 h5 h7 h9 h11 h12 h15] at h
      cases h

end DotNetBinaryReader

/-!
Claim theorems.
-/

namespace DotNetBinaryReader

open BinaryReader

/-- C2: for a stream whose first record is a StreamHeader (its four
32-bit fields readable at cursor `p`), decoding the header fails with
`MalformedHeader` exactly when the decoded MajorVersion is not 1 or the
decoded MinorVersion is not 0 - nothing after the four fields is
consulted, as the premises only constrain the sixteen header bytes; and
when MajorVersion = 1 and MinorVersion = 0 the header record with its
four fields is appended to the log by the read loop. -/
theorem c2_header_version_check (d : List Nat) (p : Nat)
    (rt hd maj mino : Int) (p1 p2 p3 p4 : Nat)
    (h1 : readInt32 d p = Except.ok (rt, p1))
    (h2 : readInt32 d p1 = Except.ok (hd, p2))
    (h3 : readInt32 d p2 = Except.ok (maj, p3))
    (h4 : readInt32 d p3 = Except.ok (mino, p4)) :
    (∀ prev : List Record,
      (readSerializationHeader d prev p = Except.error Err.malformedHeader ↔
        (maj ≠ 1 ∨ mino ≠ 0))) ∧
    (∀ prev : List Record, maj = 1 → mino = 0 →
      readSerializationHeader d prev p =
        Except.ok (Record.serializationHeader rt hd maj mino, p4)) ∧
    (∀ (p0 fuel : Nat) (acc : List Record),
      readInt8 d p0 = Except.ok (0, p) → maj = 1 → mino = 0 →
      readLoop d (fuel + 1) acc p0 =
        readLoop d fuel
          (acc ++ [Record.serializationHeader rt hd maj mino]) p4) := by
  have hred : ∀ prev : List Record,
      readSerializationHeader d prev p =
        (if maj = 1 then
          (if mino = 0 then
            Except.ok (Record.serializationHeader rt hd maj mino, p4)
          else Except.error Err.malformedHeader)
        else Except.error Err.malformedHeader) := by
    intro prev
    unfold readSerializationHeader
    rw [bind_apply, h1]
    dsimp only
    rw [bind_apply, h2]
    dsimp only
    rw [bind_apply, h3]
    dsimp only
    rw [bind_apply, h4]
    dsimp only
    by_cases hm : maj = 1
    · rw [if_pos hm, if_pos hm]
      by_cases hn : mino = 0
      · rw [if_pos hn, if_pos hn]
        rfl
      · rw [if_neg hn, if_neg hn]
        rfl
    · rw [if_neg hm, if_neg hm]
      rfl
  refine ⟨?_, ?_, ?_⟩
  · intro prev
    rw [hred prev]
    constructor
    · intro herr
      by_cases hm : maj = 1
      · by_cases hn : mino = 0
        · rw [if_pos hm, if_pos hn] at herr
          cases herr
        · exact Or.inr hn
      · exact Or.inl hm
    · intro hor
      by_cases hm : maj = 1
      · have hn : mino ≠ 0 := by
          rcases hor with hx | hx
          · exact absurd hm hx
          · exact hx
        rw [if_pos hm, if_neg hn]
      · rw [if_neg hm]
  · intro prev hm hn
    rw [hred prev, if_pos hm, if_pos hn]
  · intro p0 fuel acc htag hm hn
    rw [readLoop_step_serializationHeader fuel acc htag, bind_apply,
      hred acc, if_pos hm, if_pos hn]

/-- Witness for C2: a concrete header with version 1.0 decodes to the
header record; a concrete header with MajorVersion 3 fails with
`MalformedHeader`. -/
theorem c2_witness :
    readSerializationHeader [9, 1, 0, 0, 0, 2, 0, 0, 0, 1, 0, 0, 0, 0, 0, 0, 0]
        [] 1 =
      Except.ok (Record.serializationHeader 1 2 1 0, 17) ∧
    readSerializationHeader [9, 1, 0, 0, 0, 2, 0, 0, 0, 3, 0, 0, 0, 0, 0, 0, 0]
        [] 1 =
      Except.error Err.malformedHeader :=
  ⟨(c2_header_version_check
      [9, 1, 0, 0, 0, 2, 0, 0, 0, 1, 0, 0, 0, 0, 0, 0, 0] 1 1 2 1 0 5 9 13 17
      (by rfl) (by rfl) (by rfl) (by rfl)).2.1 [] rfl rfl,
   ((c2_header_version_check
      [9, 1, 0, 0, 0, 2, 0, 0, 0, 3, 0, 0, 0, 0, 0, 0, 0] 1 1 2 3 0 5 9 13 17
      (by rfl) (by rfl) (by rfl) (by rfl)).1 []).mpr
     (Or.inl (by decide))⟩

/-- C3: decoding a ClassWithId whose two 32-bit fields are readable
fails with `UnresolvedReference` exactly when no class-defining record
decoded earlier (an entry of the previous-records log) has an ObjectId
equal to the MetadataId; when the scan finds a record, that record is a
`classWithMembersAndTypes` with the matching ObjectId and the member
values are decoded with THAT record's ClassInfo and MemberTypeInfo (no
schema bytes are re-read: decoding continues at `p2`, directly after
the MetadataId). -/
theorem c3_class_with_id_schema_reuse (d : List Nat) (prev : List Record)
    (p : Nat) (oid mid : Int) (p1 p2 : Nat)
    (h1 : readInt32 d p = Except.ok (oid, p1))
    (h2 : readInt32 d p1 = Except.ok (mid, p2)) :
    ((readClassWithId d prev p = Except.error Err.unresolvedReference) ↔
      ∀ r ∈ prev, isRelevantClassRecord mid r = false) ∧
    (∀ r, findRelevantClassRecord prev mid = some r →
      (∃ ci mti lib mv0,
        r = Record.classWithMembersAndTypes ci mti lib mv0 ∧
        ci.objectId = mid) ∧
      readClassWithId d prev p =
        (readClassMemberValues d (recordClassInfo r)
            (recordMemberTypeInfo r) >>= fun mv =>
          pure (Record.classWithId oid mid mv)) p2) := by
  have hred : readClassWithId d prev p =
      (match findRelevantClassRecord prev mid with
        | none => (thr Err.unresolvedReference : M Record)
        | some r =>
            readClassMemberValues d (recordClassInfo r)
                (recordMemberTypeInfo r) >>= fun mv =>
              pure (Record.classWithId oid mid mv)) p2 := by
    unfold readClassWithId
    rw [bind_apply, h1]
    dsimp only
    rw [bind_apply, h2]
  constructor
  · rw [hred]
    cases hfind : findRelevantClassRecord prev mid with
    | none =>
      constructor
      · intro _
        exact (findRelevantClassRecord_eq_none_iff prev mid).mp hfind
      · intro _
        rfl
    | some r =>
      constructor
      · intro herr
        exact absurd herr
          (noUnres_bind (noUnres_readClassMemberValues d _ _)
            (fun mv => noUnres_pure _) p2)
      · intro hall
        have hnone : findRelevantClassRecord prev mid = none :=
          (findRelevantClassRecord_eq_none_iff prev mid).mpr hall
        rw [hfind] at hnone
        cases hnone
  · intro r hfind
    refine ⟨findRelevantClassRecord_some_shape hfind, ?_⟩
    rw [hred, hfind]

/-- Witness for C3: with an earlier class record of ObjectId 5 in the
log, a concrete ClassWithId with MetadataId 5 decodes by reusing that
record's (empty) schema; with an empty log the same bytes fail with
`UnresolvedReference`. -/
theorem c3_witness :
    readClassWithId [9, 7, 0, 0, 0, 5, 0, 0, 0]
        [Record.classWithMembersAndTypes ⟨5, "C", 0, []⟩ ⟨[], []⟩ 2 []] 1 =
      (readClassMemberValues [9, 7, 0, 0, 0, 5, 0, 0, 0]
          (recordClassInfo
            (Record.classWithMembersAndTypes ⟨5, "C", 0, []⟩ ⟨[], []⟩ 2 []))
          (recordMemberTypeInfo
            (Record.classWithMembersAndTypes ⟨5, "C", 0, []⟩ ⟨[], []⟩ 2 []))
          >>= fun mv => pure (Record.classWithId 7 5 mv)) 9 ∧
    readClassWithId [9, 7, 0, 0, 0, 5, 0, 0, 0] [] 1 =
      Except.error Err.unresolvedReference :=
  ⟨((c3_class_with_id_schema_reuse [9, 7, 0, 0, 0, 5, 0, 0, 0]
      [Record.classWithMembersAndTypes ⟨5, "C", 0, []⟩ ⟨[], []⟩ 2 []] 1 7 5 5 9
      (by rfl) (by rfl)).2 _ (by rfl)).2,
   ((c3_class_with_id_schema_reuse [9, 7, 0, 0, 0, 5, 0, 0, 0] [] 1 7 5 5 9
      (by rfl) (by rfl)).1).mpr (by intro r hr; cases hr)⟩

/-- C4 counterexample: calling the Type Resolver (`#readAdditionalInfo`)
with the out-of-range BinaryTypeEnum 8 does NOT fail with
`InvalidEnumValue` - the switch has no default case, so the call
succeeds and returns the JS `undefined` as the AdditionalInfo. -/
theorem c4_counterexample_out_of_range_binary_type :
    readAdditionalInfo [] 8 1 = Except.ok (AddInfo.jsUndefined, 1) := by rfl

/-- C4 (amended): for every BinaryTypeEnum outside 0..7, the Type
Resolver consumes nothing and returns `undefined` (no AdditionalInfo
payload) instead of failing; no `InvalidEnumValue` error is raised. -/
theorem c4_amended_returns_undefined (d : List Nat) (t : Int) (p : Nat)
    (h : t < 0 ∨ 7 < t) :
    readAdditionalInfo d t p = Except.ok (AddInfo.jsUndefined, p) := by
  unfold readAdditionalInfo
  iterate 8 refine ite_app_neg (by omega) ?_
  rfl

/-- Witness for the amended C4 at the concrete enum value 23. -/
theorem c4_amended_witness :
    readAdditionalInfo [5] 23 2 = Except.ok (AddInfo.jsUndefined, 2) :=
  c4_amended_returns_undefined [5] 23 2 (Or.inr (by decide))

/-- C5 counterexample: in the ArraySinglePrimitive record the reserved
PrimitiveTypeEnum 4 passes the 0..16 range assert, so a concrete record
with enum byte 4 decodes successfully instead of failing with
`InvalidEnumValue`. -/
theorem c5_counterexample_reserved_primitive_accepted :
    readArraySinglePrimitive [0, 1, 0, 0, 0, 0, 0, 0, 0, 4] [] 1 =
      Except.ok (Record.arraySinglePrimitive ⟨1, 0⟩ 4, 10) := by rfl

/-- C5 (amended): in member-value decoding (`#readPrimitive`) the value
4 and every value outside 1..18 do fail with `InvalidEnumValue`; the
ArraySinglePrimitive record instead only range-checks its enum byte to
0..16: a value outside 0..16 fails with `InvalidEnumValue`, while every
value in 0..16 - including the reserved 4 and the out-of-enumeration
0 - is accepted. -/
theorem c5_amended_primitive_enum_checks :
    (∀ (d : List Nat) (p : Nat) (t : Int), (t = 4 ∨ t < 1 ∨ 18 < t) →
      readPrimitive d t p = Except.error Err.invalidEnumValue) ∧
    (∀ (d : List Nat) (prev : List Record) (p q q1 : Nat) (ai : ArrayInfo)
      (t : Int), readArrayInfo d p = Except.ok (ai, q) →
      readInt8 d q = Except.ok (t, q1) →
      (¬(0 ≤ t ∧ t ≤ 16) →
        readArraySinglePrimitive d prev p =
          Except.error Err.invalidEnumValue) ∧
      ((0 ≤ t ∧ t ≤ 16) →
        readArraySinglePrimitive d prev p =
          Except.ok (Record.arraySinglePrimitive ai t, q1))) := by
  constructor
  · intro d p t ht
    unfold readPrimitive
    iterate 3 refine ite_app_neg (by omega) ?_
    refine ite_app_error fun _ => ?_
    iterate 14 refine ite_app_neg (by omega) ?_
    rfl
  · intro d prev p q q1 ai t hai ht
    have hred : readArraySinglePrimitive d prev p =
        (if 0 ≤ t ∧ t ≤ 16 then
          Except.ok (Record.arraySinglePrimitive ai t, q1)
        else Except.error Err.invalidEnumValue) := by
      unfold readArraySinglePrimitive
      rw [bind_apply, hai]
      dsimp only
      rw [bind_apply, ht]
      dsimp only
      by_cases hc : 0 ≤ t ∧ t ≤ 16
      · rw [if_pos hc, if_pos hc]
        rfl
      · rw [if_neg hc, if_neg hc]
        rfl
    constructor
    · intro hc
      rw [hred, if_neg hc]
    · intro hc
      rw [hred, if_pos hc]

/-- Witness for the amended C5: the enum 19 fails in member-value
decoding; a concrete ArraySinglePrimitive with enum byte 17 fails with
`InvalidEnumValue` and one with enum byte 0 is accepted. -/
theorem c5_amended_witness :
    readPrimitive [] 19 1 = Except.error Err.invalidEnumValue ∧
    readArraySinglePrimitive [0, 2, 0, 0, 0, 1, 0, 0, 0, 17] [] 1 =
      Except.error Err.invalidEnumValue ∧
    readArraySinglePrimitive [0, 2, 0, 0, 0, 1, 0, 0, 0, 0] [] 1 =
      Except.ok (Record.arraySinglePrimitive ⟨2, 1⟩ 0, 10) :=
  ⟨c5_amended_primitive_enum_checks.1 [] 1 19 (Or.inr (Or.inr (by decide))),
   (c5_amended_primitive_enum_checks.2 [0, 2, 0, 0, 0, 1, 0, 0, 0, 17] [] 1 9
      10 ⟨2, 1⟩ 17 (by rfl) (by rfl)).1 (by decide),
   (c5_amended_primitive_enum_checks.2 [0, 2, 0, 0, 0, 1, 0, 0, 0, 0] [] 1 9
      10 ⟨2, 1⟩ 0 (by rfl) (by rfl)).2 (by decide)⟩

end DotNetBinaryReader


namespace DotNetBinaryReader

open BinaryReader

/-- C1 counterexample: the spec's resolution pass does not exist.  A
concrete stream `[StreamHeader v1.0][MemberReference IdRef=99]
[StreamEnd]` decodes successfully even though no record in the stream
has ObjectId 99: `decode` returns the raw log (with the unresolved
IdRef 99 in it) instead of failing with `UnresolvedReference`, and no
ObjectId-to-index mapping or resolved edge set is produced. -/
theorem c1_counterexample_unmatched_reference_succeeds :
    read [0, 0, 1, 0, 0, 0, 0, 0, 0, 0, 1, 0, 0, 0, 0, 0, 0, 0,
        9, 99, 0, 0, 0, 11] =
      Except.ok ([Record.serializationHeader 1 0 1 0,
        Record.memberReference 99], 24) := by rfl

/-- C1 (amended): `read` returns only the ordered record log.  On
reaching the StreamEnd terminator the loop returns the accumulated log
unchanged - no ObjectId-to-position mapping is built and no reference
edge is looked up, so an IdRef matching no record's ObjectId is not an
`UnresolvedReference` failure; a MemberReference whose target appears
strictly later in the stream is returned as its raw IdRef (here 7),
unresolved, next to the later target record. -/
theorem c1_amended_no_resolution_pass :
    (∀ (d : List Nat) (fuel : Nat) (acc : List Record) (p q : Nat),
      readInt8 d p = Except.ok (11, q) →
      readLoop d (fuel + 1) acc p = Except.ok (acc, q)) ∧
    read [0, 0, 1, 0, 0, 0, 0, 0, 0, 0, 1, 0, 0, 0, 0, 0, 0, 0,
        9, 7, 0, 0, 0,
        5, 7, 0, 0, 0, 1, 67, 0, 0, 0, 0, 2, 0, 0, 0, 11] =
      Except.ok ([Record.serializationHeader 1 0 1 0,
        Record.memberReference 7,
        Record.classWithMembersAndTypes ⟨7, "C", 0, []⟩ ⟨[], []⟩ 2 []],
        39) :=
  ⟨fun d fuel acc p q h => readLoop_messageEnd fuel acc h, by rfl⟩

/-- Witness for the amended C1 at a concrete terminator byte. -/
theorem c1_amended_witness :
    readLoop [0, 11] 3 [Record.memberReference 5] 1 =
      Except.ok ([Record.memberReference 5], 2) :=
  c1_amended_no_resolution_pass.1 [0, 11] 2 [Record.memberReference 5] 1 2
    (by rfl)

/-- C6: every read operation of the Primitive Reader fails with
`TruncatedInput` when fewer bytes than its width remain before the end
of the buffer (for `readString`: when even the length byte is missing,
or when fewer than its value many bytes follow it); and a successful
`read` never ends with its cursor beyond the end of the buffer - a
decode that would have to read past the end propagates the failure
instead of returning a partial record log. -/
theorem c6_truncated_input (d : List Nat) (p : Nat) :
    (d.length < p + 1 →
      readInt8 d p = Except.error Err.truncatedInput ∧
      readUInt8 d p = Except.error Err.truncatedInput ∧
      readChar d p = Except.error Err.truncatedInput ∧
      readString d p = Except.error Err.truncatedInput) ∧
    (d.length < p + 2 →
      readInt16 d p = Except.error Err.truncatedInput ∧
      readUInt16 d p = Except.error Err.truncatedInput) ∧
    (d.length < p + 4 →
      readInt32 d p = Except.error Err.truncatedInput ∧
      readUInt32 d p = Except.error Err.truncatedInput ∧
      readFloat32 d p = Except.error Err.truncatedInput) ∧
    (d.length < p + 8 →
      readInt64 d p = Except.error Err.truncatedInput ∧
      readUInt64 d p = Except.error Err.truncatedInput ∧
      readFloat64 d p = Except.error Err.truncatedInput) ∧
    (∀ L : Nat, d[p]? = some L → d.length < p + 1 + L →
      readString d p = Except.error Err.truncatedInput) ∧
    (∀ (res : List Record) (q : Nat),
      read d = Except.ok (res, q) → q ≤ d.length) := by
  refine ⟨?_, ?_, ?_, ?_, ?_, ?_⟩
  · intro h
    exact ⟨readInt8_truncated h, readUInt8_truncated h,
      readChar_truncated h, readString_truncated_length h⟩
  · intro h
    exact ⟨readInt16_truncated h, readUInt16_truncated h⟩
  · intro h
    exact ⟨readInt32_truncated h, readUInt32_truncated h,
      readFloat32_truncated h⟩
  · intro h
    exact ⟨readInt64_truncated h, readUInt64_truncated h,
      readFloat64_truncated h⟩
  · intro L hL h
    exact readString_truncated_data hL h
  · intro res q h
    exact read_pos_le_length h

/-- Witness for C6 at a one-byte buffer (cursor starts at 1, zero bytes
remain) and at a string whose length byte promises more bytes than the
buffer holds. -/
theorem c6_witness :
    readInt8 [7] 1 = Except.error Err.truncatedInput ∧
    readString [7, 2, 65] 1 = Except.error Err.truncatedInput :=
  ⟨((c6_truncated_input [7] 1).1 (by decide)).1,
   (c6_truncated_input [7, 2, 65] 1).2.2.2.2.1 2 (by rfl) (by decide)⟩

/-- C7 (code bug): the `#readMemberReference` assert reads
"MUST be a positive integer" but checks `IdRef >= 0`, so the
non-positive IdRef 0 is accepted: the record decodes successfully (also
as part of a whole stream), while a negative IdRef does fail.  Per the
assert's own message and the spec, IdRef 0 should be a fatal failure. -/
theorem c7_code_bug_idref_zero_accepted :
    readMemberReference [0, 0, 0, 0, 0] [] 1 =
      Except.ok (Record.memberReference 0, 5) ∧
    read [0, 0, 1, 0, 0, 0, 0, 0, 0, 0, 1, 0, 0, 0, 0, 0, 0, 0,
        9, 0, 0, 0, 0, 11] =
      Except.ok ([Record.serializationHeader 1 0 1 0,
        Record.memberReference 0], 24) ∧
    readMemberReference [0, 255, 255, 255, 255] [] 1 =
      Except.error Err.assertionFailure := by
  refine ⟨by rfl, by rfl, by rfl⟩

/-- C8: every 64-bit integer produced by the member-value decoder
(Int64, UInt64, and the TimeSpan/DateTime tick counts, PrimitiveTypeEnum
9, 12, 13 and 16) is carried as a BigInt value, and the JSON replacer of
the rendering step turns every BigInt value - for every 64-bit integer,
including those a double cannot represent - into its exact decimal
string (a string token, not a numeric literal), leaving every non-BigInt
value unchanged. -/
theorem c8_bigint_decimal_string :
    (∀ (d : List Nat) (t : Int) (p : Nat) (v : Value) (q : Nat),
      (t = 9 ∨ t = 12 ∨ t = 13 ∨ t = 16) →
      readPrimitive d t p = Except.ok (v, q) →
      ∃ i : Int, v = Value.vBig i) ∧
    (∀ i : Int, jsonReplacer (Value.vBig i) = Value.vStr (toString i)) ∧
    (∀ v : Value, (∀ i : Int, v ≠ Value.vBig i) → jsonReplacer v = v) := by
  refine ⟨?_, fun i => rfl, ?_⟩
  · intro d t p v q ht h
    rcases ht with rfl | rfl | rfl | rfl
    all_goals
      unfold readPrimitive at h
      norm_num at h
      rw [bind_apply] at h
      split at h
      · cases h
      · rw [pure_apply] at h
        cases h
        exact ⟨_, rfl⟩
  · intro v hv
    cases v with
    | vBig i => exact absurd rfl (hv i)
    | vBool b => rfl
    | vNum i => rfl
    | vStr s => rfl
    | vChar c => rfl
    | vF32 bits => rfl
    | vF64 bits => rfl
    | vRef r i => rfl
    | vUndefined => rfl

/-- Witness for C8: decoding PrimitiveTypeEnum 9 over concrete bytes
yields the BigInt -9223372036854775807 (not exactly representable as a
double), which the replacer renders as its exact decimal string. -/
theorem c8_witness :
    (∃ i : Int, Value.vBig (-9223372036854775807) = Value.vBig i) ∧
    jsonReplacer (Value.vBig (-9223372036854775807)) =
      Value.vStr (toString (-9223372036854775807 : Int)) :=
  ⟨c8_bigint_decimal_string.1 [0, 1, 0, 0, 0, 0, 0, 0, 128] 9 1
      (Value.vBig (-9223372036854775807)) 9 (Or.inl rfl) (by rfl),
   c8_bigint_decimal_string.2.1 (-9223372036854775807)⟩

end DotNetBinaryReader

namespace DotNetBinaryReader

open BinaryReader

/-- C9: the record log is append-only and carries exactly one entry per
successfully decoded non-terminator record, in stream order: whatever
the loop returns on success extends its accumulator on the right; on the
MessageEnd terminator the tag byte is consumed (the cursor moves exactly
one byte) and the loop returns with nothing appended for it; and for
each of the seven supported non-terminator tags one loop iteration
decodes one record and continues with exactly that record appended. -/
theorem c9_log_append_discipline :
    (∀ (d : List Nat) (fuel : Nat) (acc : List Record) (p : Nat)
      (res : List Record) (q : Nat),
      readLoop d fuel acc p = Except.ok (res, q) →
      ∃ rs, res = acc ++ rs) ∧
    (∀ (d : List Nat) (fuel : Nat) (acc : List Record) (p q : Nat),
      readInt8 d p = Except.ok (11, q) →
      readLoop d (fuel + 1) acc p = Except.ok (acc, q) ∧ q = p + 1) ∧
    (∀ (d : List Nat) (fuel : Nat) (acc : List Record) (p q : Nat),
      (readInt8 d p = Except.ok (0, q) →
        readLoop d (fuel + 1) acc p =
          (readSerializationHeader d acc >>= fun r =>
            readLoop d fuel (acc ++ [r])) q) ∧
      (readInt8 d p = Except.ok (1, q) →
        readLoop d (fuel + 1) acc p =
          (readClassWithId d acc >>= fun r =>
            readLoop d fuel (acc ++ [r])) q) ∧
      (readInt8 d p = Except.ok (5, q) →
        readLoop d (fuel + 1) acc p =
          (readClassWithMembersAndTypes d acc >>= fun r =>
            readLoop d fuel (acc ++ [r])) q) ∧
      (readInt8 d p = Except.ok (7, q) →
        readLoop d (fuel + 1) acc p =
          (readBinaryArray d acc >>= fun r =>
            readLoop d fuel (acc ++ [r])) q) ∧
      (readInt8 d p = Except.ok (9, q) →
        readLoop d (fuel + 1) acc p =
          (readMemberReference d acc >>= fun r =>
            readLoop d fuel (acc ++ [r])) q) ∧
      (readInt8 d p = Except.ok (12, q) →
        readLoop d (fuel + 1) acc p =
          (readBinaryLibrary d acc >>= fun r =>
            readLoop d fuel (acc ++ [r])) q) ∧
      (readInt8 d p = Except.ok (15, q) →
        readLoop d (fuel + 1) acc p =
          (readArraySinglePrimitive d acc >>= fun r =>
            readLoop d fuel (acc ++ [r])) q)) := by
  refine ⟨?_, ?_, ?_⟩
  · intro d fuel acc p res q h
    exact readLoop_extends fuel acc p res q h
  · intro d fuel acc p q h
    exact ⟨readLoop_messageEnd fuel acc h, readInt8_ok_advance h⟩
  · intro d fuel acc p q
    exact ⟨readLoop_step_serializationHeader fuel acc,
      readLoop_step_classWithId fuel acc,
      readLoop_step_classWithMembersAndTypes fuel acc,
      readLoop_step_binaryArray fuel acc,
      readLoop_step_memberReference fuel acc,
      readLoop_step_binaryLibrary fuel acc,
      readLoop_step_arraySinglePrimitive fuel acc⟩

/-- Witness for C9 at a concrete terminator: the log is returned as is
and only the tag byte was consumed. -/
theorem c9_witness :
    readLoop [0, 11] 3 [Record.binaryLibrary 3 "L"] 1 =
      Except.ok ([Record.binaryLibrary 3 "L"], 2) ∧ (2 : Nat) = 1 + 1 :=
  c9_log_append_discipline.2.1 [0, 11] 2 [Record.binaryLibrary 3 "L"] 1 2
    (by rfl)

/-- C10: a freshly constructed reader starts with its cursor at offset
1, not 0 (`initialPosition`, the `position = 1` field initializer); the
decode loop starts reading its first record-type tag at that offset;
and the byte at offset 0 is never read by any decode operation: two
buffers of the same length that agree everywhere except possibly at
offset 0 decode identically. -/
theorem c10_cursor_starts_at_one :
    initialPosition = 1 ∧
    (∀ d : List Nat, read d = readLoop d (d.length + 1) [] 1) ∧
    (∀ d dp : List Nat, Compat d dp → read d = read dp) :=
  ⟨rfl, fun d => rfl, fun d dp h => read_compat h⟩

/-- Witness for C10: two concrete buffers differing only in the byte at
offset 0 decode to the same result. -/
theorem c10_witness : read [0, 11] = read [5, 11] :=
  c10_cursor_starts_at_one.2.2 [0, 11] [5, 11]
    ⟨rfl, by
      intro i hi
      rcases i with _ | _ | n
      · omega
      · rfl
      · rfl⟩

end DotNetBinaryReader
